import Mathlib

/-!
# TCP download server (`src/server/download_server.c`)

A shallow embedding of the worker-thread side of the download server: the pool of
lockable I/O buffers, the data-socket handshake, the command dispatcher with its GET and
LIST handlers, and the control loop.

Conventions of the embedding.

* A byte is a `Nat`; a buffer is the `List Nat` of its bytes.  String constants of the
  header are written as their ASCII codes.
* A C string held in storage of its own (a string literal, `dirent.d_name`) is the list of
  its bytes without the terminator.  The pool buffers are modelled with all their bytes,
  and the C string they hold is read off with `cstr`.
* What the program does to the outside is recorded as a trace of `Event`s: every
  `send`, `recv`, `close`, console line and call of `establishDataConnection`.
* What the outside does to the program is an explicit argument: the pending input of the
  control socket (`Inbox`), the outcome of the system calls of one command (`World`), and
  for the control loop what each iteration observes (`Tick`).
* A dereference of a null pointer ends the run; functions that can reach one say so in
  their result (`returned := false`, `retval := none`, `Finish.faulted`).
* A blocking call (`recv` on the data connection, `connect`) is taken to return.  A read of
  the C string in the input buffer stops at the end of the buffer; `strlen` of the output
  buffer, which the GET loop compares with the buffer size, does not (`strlenOver`).
-/

namespace DownloadServer

/-! ## Constants of `download_server.h` -/

def IN_BUFFER_SIZE : Nat := 128
def OUT_BUFFER_SIZE : Nat := 4096
def NUM_BUFFERS : Nat := 5

/-- The bytes of `"-g"`. -/
def GET_MESSAGE : List Nat := [45, 103]
/-- The bytes of `"-l"`. -/
def LIST_MESSAGE : List Nat := [45, 108]
/-- The bytes of `"@@ERROR_INVALID_COMMAND"`. -/
def ERROR_INVALID_COMMAND : List Nat :=
  [64, 64, 69, 82, 82, 79, 82, 95, 73, 78, 86, 65, 76, 73, 68, 95, 67, 79, 77, 77, 65, 78, 68]
/-- The bytes of `"@@ERROR_BAD_FILENAME"`. -/
def ERROR_BAD_FILENAME : List Nat :=
  [64, 64, 69, 82, 82, 79, 82, 95, 66, 65, 68, 95, 70, 73, 76, 69, 78, 65, 77, 69]
/-- The bytes of `"@@SERVER_KILL"`. -/
def SERVER_KILL_MESSAGE : List Nat := [64, 64, 83, 69, 82, 86, 69, 82, 95, 75, 73, 76, 76]
/-- The bytes of `"@@ACK_ADDR"`. -/
def ACK_ADDR : List Nat := [64, 64, 65, 67, 75, 95, 65, 68, 68, 82]
/-- The bytes of `"@@ACK_PORT"`. -/
def ACK_PORT : List Nat := [64, 64, 65, 67, 75, 95, 80, 79, 82, 84]
/-- The bytes of `"@@END_DATA"`. -/
def END_DATA_MESSAGE : List Nat := [64, 64, 69, 78, 68, 95, 68, 65, 84, 65]

/-- Values of `enum client_status`. -/
def CLIENT_DISCONNECTED : Int := -1
def CLIENT_VALID_CONNECTED : Int := 0
def CLIENT_INVALID_CONNECTED : Int := 1

/-! ## C strings -/

/-- The C string stored at the start of `s`: the bytes before the first zero byte. -/
def cstr (s : List Nat) : List Nat := s.takeWhile (fun c => c != 0)

/-- The value of `strlen(s)` when `s` holds a terminator. -/
def strlen (s : List Nat) : Nat := (cstr s).length

/-- Whether `strcmp(a, b) == 0`. -/
def strcmp (a b : List Nat) : Bool := cstr a == cstr b

/-- Whether `strncmp(a, b, n) == 0`. -/
def strncmp (a b : List Nat) (n : Nat) : Bool := (cstr a).take n == (cstr b).take n

/-- The buffer after `memset(buf, 0, size)` over its whole allocation of `size` bytes. -/
def zeroed (size : Nat) : List Nat := List.replicate size 0

/-- The value of `strlen(buf)` for a buffer that may hold no terminator: the scan then runs on
into the `past` non-zero bytes that follow the buffer in memory. -/
def strlenOver (buf : List Nat) (past : Nat) : Nat :=
  if strlen buf < buf.length then strlen buf else buf.length + past

/-! ## Trace of observable actions -/

/-- The two descriptors of a worker: `worker_cmd_fd` and `worker_data_fd`. -/
inductive Fd where
  | cmd
  | data
  deriving DecidableEq, Repr

/-- Lines written to the console (`printf` and `fprintf(stderr, ...)`). -/
inductive Console where
  | noMutexAvailable
  | clientDisconnected
  | commandReceived
  | handlingList
  | invalidCommand
  | sendingFile
  | fileNotFound
  | sendingDirectory
  | couldNotOpenDirectory
  | failedToResolve
  | failedToConnect
  | couldntGetInfo
  | failedToGetInfo
  | workerConnected
  deriving DecidableEq, Repr

inductive Event where
  /-- A call `send(fd, bytes, len, 0)`. -/
  | send (fd : Fd) (bytes : List Nat)
  /-- A call `recv(fd, _, size, 0)`. -/
  | recv (fd : Fd) (size : Nat)
  /-- A call of `establishDataConnection`. -/
  | establish
  /-- A call `close(fd)`. -/
  | close (fd : Fd)
  | console (line : Console)
  /-- A call of `handleClientCmd` from the control loop. -/
  | dispatch
  deriving DecidableEq, Repr

/-- All bytes sent on `fd` in a trace, in order. -/
def sentOn (fd : Fd) : List Event → List Nat
  | [] => []
  | Event.send f bytes :: rest => if f = fd then bytes ++ sentOn fd rest else sentOn fd rest
  | _ :: rest => sentOn fd rest

/-- The sizes of the `send` calls on `fd` in a trace, in order. -/
def sendSizes (fd : Fd) : List Event → List Nat
  | [] => []
  | Event.send f bytes :: rest =>
      if f = fd then bytes.length :: sendSizes fd rest else sendSizes fd rest
  | _ :: rest => sendSizes fd rest

/-! ## Environment -/

/-- Pending input of the control socket, one entry per `recv` call that will be served:
`none` is a receive that fails with -1, `some bytes` the bytes that have arrived.  The empty
inbox is the connection closed by the peer, on which `recv` returns 0. -/
abbrev Inbox := List (Option (List Nat))

/-- The outcome of the system calls made while one command is handled. -/
structure World where
  /-- Whether `getaddrinfo` resolves the client's data address. -/
  getaddrinfo : Bool
  /-- Whether `socket` and `connect` succeed for one of the resolved addresses. -/
  connect : Bool
  /-- The result of `opendir(".")`: the entry names in `readdir` order, `none` for `NULL`. -/
  opendir : Option (List (List Nat))
  /-- The result of `fopen(name, "r")`: the bytes of the file, `none` for `NULL`. -/
  fopen : List Nat → Option (List Nat)
  /-- The number of non-zero bytes that follow the output buffer in memory. -/
  past : Nat

/-! ## Buffer pool -/

/-- The globals `io_mutexes`, `in_buffers` and `out_buffers`, indexed by slot.
`io_mutexes i = true` means mutex `i` is locked. -/
structure Pool where
  io_mutexes : Nat → Bool
  in_buffers : Nat → List Nat
  out_buffers : Nat → List Nat

/-- The `while` loop of `acquireFreeIOMutex`, entered with `acquired == -1` at index `idx`.
Returns the final `(acquired, idx)`. -/
def acquireScan (io_mutexes : Nat → Bool) (idx : Nat) : Int × Nat :=
  if idx < NUM_BUFFERS then
    if io_mutexes idx = false then (1, idx)      -- pthread_mutex_trylock(...) == 0
    else acquireScan io_mutexes (idx + 1)
  else (-1, idx)
termination_by NUM_BUFFERS - idx

/-- The function `acquireFreeIOMutex`: the returned index and the pool it leaves. -/
def acquireFreeIOMutex (pool : Pool) : Int × Pool :=
  let scan := acquireScan pool.io_mutexes 0
  let acquired := scan.1
  let idx := scan.2
  if acquired > 0 then
    ((idx : Int),
     { io_mutexes := Function.update pool.io_mutexes idx true   -- the trylock that succeeded
       in_buffers := Function.update pool.in_buffers idx (zeroed IN_BUFFER_SIZE)
       out_buffers := Function.update pool.out_buffers idx (zeroed OUT_BUFFER_SIZE) })
  else (acquired, pool)

/-- The call `pthread_mutex_unlock(&io_mutexes[idx])`. -/
def unlock (pool : Pool) (idx : Nat) : Pool :=
  { pool with io_mutexes := Function.update pool.io_mutexes idx false }

/-- The pool after the input buffer of slot `idx` has been written. -/
def setInBuffer (pool : Pool) (idx : Nat) (buf : List Nat) : Pool :=
  { pool with in_buffers := Function.update pool.in_buffers idx buf }

/-- The pool after the output buffer of slot `idx` has been written. -/
def setOutBuffer (pool : Pool) (idx : Nat) (buf : List Nat) : Pool :=
  { pool with out_buffers := Function.update pool.out_buffers idx buf }

/-- The number of slots of the pool whose mutex is not locked. -/
def freeSlots (pool : Pool) : Nat :=
  ((List.range NUM_BUFFERS).filter (fun i => !pool.io_mutexes i)).length

/-! ## Receiving on the control socket -/

/-- The call `recv(worker_cmd_fd, buf, size, 0)`: the return value, the buffer afterwards and
the input left pending.  At most `size` bytes are taken; they overwrite the start of `buf`. -/
def recv (inbox : Inbox) (buf : List Nat) (size : Nat) : Int × List Nat × Inbox :=
  match inbox with
  | [] => (0, buf, [])
  | none :: rest => (-1, buf, rest)
  | some bytes :: rest =>
      if bytes.length ≤ size then
        ((bytes.length : Int), bytes ++ buf.drop bytes.length, rest)
      else
        ((size : Int), bytes.take size ++ buf.drop size, some (bytes.drop size) :: rest)

/-! ## Command handlers -/

/-- What a handler leaves: its trace, the output buffer, and whether it returned (it does not
when it passes a null pointer to `readdir` or `fread`). -/
structure Handled where
  trace : List Event
  out_buffer : List Nat
  returned : Bool

/-- The function `sendError`: `memset`, `memcpy` of the message, then a `send` of
`strlen(out_buffer)` bytes.  Returns the trace and the output buffer. -/
def sendError (fd : Fd) (error : List Nat) : List Event × List Nat :=
  let out_buffer := error ++ (zeroed OUT_BUFFER_SIZE).drop error.length
  ([Event.send fd (cstr out_buffer)], out_buffer)

/-- The function `handleInvalidCmd`. -/
def handleInvalidCmd : List Event × List Nat :=
  let sent := sendError Fd.cmd ERROR_INVALID_COMMAND
  (Event.console Console.invalidCommand :: sent.1, sent.2)

/-- The function `sendEndData`. -/
def sendEndData (fd : Fd) : List Event := [Event.send fd END_DATA_MESSAGE]

/-- The function `sendDataDisconnectToClient`: the end-of-data message, then the receive of the
client's acknowledgement. -/
def sendDataDisconnectToClient : List Event :=
  sendEndData Fd.data ++ [Event.recv Fd.data END_DATA_MESSAGE.length]

/-- The function `directoryContains`, over the entry names `readdir` yields. -/
def directoryContains : List (List Nat) → List Nat → Bool
  | [], _ => false
  | d_name :: rest, file_name =>
      if strcmp d_name file_name then true else directoryContains rest file_name

/-- The buffer after `memset(output_buffer, 0, OUT_BUFFER_SIZE)` and
`fread(output_buffer, OUT_BUFFER_SIZE, 1, fp)` with `rest` the unread bytes of the file. -/
def fread (rest : List Nat) : List Nat :=
  rest.take OUT_BUFFER_SIZE ++ (zeroed OUT_BUFFER_SIZE).drop (rest.take OUT_BUFFER_SIZE).length

/-- The `do ... while` loop of `handleGetCmd` with `rest` the unread bytes of the file: every
pass sends the whole output buffer.  Returns the trace and the output buffer. -/
def sendFile (past : Nat) (rest : List Nat) : List Event × List Nat :=
  -- `fread rest` is `output_buffer` after the `memset` and the `fread` of this pass
  if _h : strlenOver (fread rest) past = OUT_BUFFER_SIZE then
    let more := sendFile past (rest.drop OUT_BUFFER_SIZE)
    (Event.send Fd.data (fread rest) :: more.1, more.2)
  else ([Event.send Fd.data (fread rest)], fread rest)
termination_by rest.length
decreasing_by
  have key : ∀ a b : List Nat, (cstr (a ++ 0 :: b)).length ≤ a.length := by
    intro a b
    induction a with
    | nil => simp [cstr]
    | cons x t ih =>
        simp only [cstr, List.cons_append, List.takeWhile_cons] at ih ⊢
        split
        · simpa using ih
        · simp
  have hfull : OUT_BUFFER_SIZE ≤ rest.length := by
    by_contra hlt
    have htake : rest.take OUT_BUFFER_SIZE = rest := List.take_of_length_le (by omega)
    obtain ⟨k, hk⟩ : ∃ k, OUT_BUFFER_SIZE - rest.length = k + 1 :=
      ⟨_, (Nat.succ_pred_eq_of_pos (by omega)).symm⟩
    have hbuf : fread rest = rest ++ 0 :: List.replicate k 0 := by
      simp only [fread, htake, zeroed, List.drop_replicate, hk, List.replicate_succ]
    have hlen : (fread rest).length = OUT_BUFFER_SIZE := by
      rw [hbuf]; simp only [List.length_append, List.length_cons, List.length_replicate]; omega
    have hc := key rest (List.replicate k 0)
    rw [← hbuf] at hc
    unfold strlenOver strlen at _h
    rw [hlen] at _h
    split at _h <;> omega
  simp only [List.length_drop, OUT_BUFFER_SIZE] at hfull ⊢
  omega

/-- The function `handleGetCmd`; `arg` is the input buffer holding the command. -/
def handleGetCmd (w : World) (arg : List Nat) (output_buffer : List Nat) : Handled :=
  let file_name := cstr (arg.drop 3)
  match w.opendir with
  | none =>
      -- `getDirectoryContents` returned NULL, which `directoryContains` hands to `readdir`
      { trace := [Event.console Console.couldNotOpenDirectory]
        out_buffer := output_buffer, returned := false }
  | some entries =>
      if directoryContains entries file_name then
        match w.fopen file_name with
        | none =>
            -- `fopen` returned NULL, which is handed to `fread`
            { trace := [Event.console Console.sendingFile]
              out_buffer := zeroed OUT_BUFFER_SIZE, returned := false }
        | some content =>
            let sent := sendFile w.past content
            { trace := Event.console Console.sendingFile :: sent.1 ++ sendDataDisconnectToClient
              out_buffer := sent.2, returned := true }
      else
        let err := sendError Fd.cmd ERROR_BAD_FILENAME
        { trace := Event.console Console.fileNotFound :: err.1
            ++ [Event.send Fd.cmd END_DATA_MESSAGE] ++ sendDataDisconnectToClient
          out_buffer := err.2, returned := true }

/-- The `while ((_dirent = readdir(_dir)) != NULL)` loop of `handleListCmd`: two sends for
every entry, its name and a newline. -/
def sendEntries : List (List Nat) → List Event
  | [] => []
  | d_name :: rest =>
      Event.send Fd.data d_name :: Event.send Fd.data [10] :: sendEntries rest

/-- The function `handleListCmd`. -/
def handleListCmd (w : World) : List Event :=
  match w.opendir with
  | none => [Event.console Console.couldNotOpenDirectory]
  | some entries =>
      Event.console Console.sendingDirectory :: sendEntries entries
        ++ [Event.send Fd.data END_DATA_MESSAGE, Event.recv Fd.data END_DATA_MESSAGE.length]

/-- The function `validCommand`. -/
def validCommand (command : List Nat) : Bool :=
  strncmp command GET_MESSAGE 2 || strncmp command LIST_MESSAGE 2

/-- The function `establishDataConnection`: whether a descriptor other than -1 is returned,
and the trace. -/
def establishDataConnection (w : World) : Bool × List Event :=
  if !w.getaddrinfo then (false, [Event.establish, Event.console Console.failedToResolve])
  else if !w.connect then (false, [Event.establish, Event.console Console.failedToConnect])
  else (true, [Event.establish, Event.recv Fd.data 28])

/-! ## Command dispatch -/

/-- What `handleClientCmd` leaves.  `retval = none` when the call does not return. -/
structure Dispatched where
  retval : Option Int
  pool : Pool
  inbox : Inbox
  trace : List Event

/-- The function `handleClientCmd`. -/
def handleClientCmd (pool : Pool) (inbox : Inbox) (w : World) : Dispatched :=
  let acquired := acquireFreeIOMutex pool
  let mutex_idx := acquired.1
  if mutex_idx ≠ -1 then
    let idx := mutex_idx.toNat
    let out_buffer := acquired.2.out_buffers idx
    let received := recv inbox (acquired.2.in_buffers idx) IN_BUFFER_SIZE
    let in_buffer := received.2.1
    let busy := setInBuffer acquired.2 idx in_buffer
    if strcmp in_buffer [0] then
      { retval := some (-1), pool := unlock busy idx, inbox := received.2.2
        trace := [Event.recv Fd.cmd IN_BUFFER_SIZE, Event.console Console.clientDisconnected] }
    else if validCommand in_buffer then
      let conn := establishDataConnection w
      let start :=
        Event.recv Fd.cmd IN_BUFFER_SIZE :: Event.console Console.commandReceived :: conn.2
      if conn.1 then
        -- `if (GET) handleGetCmd(...); else if (LIST) printf(...);` and then, outside the
        -- conditional, `handleListCmd(...)`
        let first : Handled :=
          if strncmp in_buffer GET_MESSAGE 2 then handleGetCmd w in_buffer out_buffer
          else if strncmp in_buffer LIST_MESSAGE 2 then
            { trace := [Event.console Console.handlingList]
              out_buffer := out_buffer, returned := true }
          else { trace := [], out_buffer := out_buffer, returned := true }
        let used := setOutBuffer busy idx first.out_buffer
        if first.returned then
          { retval := some 0, pool := unlock used idx, inbox := received.2.2
            trace := start ++ first.trace ++ handleListCmd w ++ [Event.close Fd.data] }
        else
          { retval := none, pool := used, inbox := received.2.2, trace := start ++ first.trace }
      else
        { retval := some 0, pool := unlock busy idx, inbox := received.2.2
          trace := start ++ [Event.close Fd.data] }
    else
      let invalid := handleInvalidCmd
      { retval := some 1, pool := unlock (setOutBuffer busy idx invalid.2) idx
        inbox := received.2.2
        trace := Event.recv Fd.cmd IN_BUFFER_SIZE :: invalid.1 }
  else
    { retval := some 1, pool := pool, inbox := inbox
      trace := [Event.console Console.noMutexAvailable] }

/-! ## Handshake -/

/-- The outcome of the two `send` calls of the handshake: `false` is a return value of -1. -/
structure Handshake where
  sendAddr : Bool
  sendPort : Bool

/-- What `getClientDataSocketInfo` leaves; `dest` is the address and port stored on success. -/
structure SocketInfo where
  retval : Int
  pool : Pool
  inbox : Inbox
  trace : List Event
  dest : Option (List Nat × List Nat)

/-- The function `getClientDataSocketInfo`.  Each `return -1` inside the locked region leaves
without unlocking. -/
def getClientDataSocketInfo (pool : Pool) (inbox : Inbox) (hs : Handshake) : SocketInfo :=
  let acquired := acquireFreeIOMutex pool
  let mutex_idx := acquired.1
  if mutex_idx ≠ -1 then
    let idx := mutex_idx.toNat
    let first := recv inbox (acquired.2.in_buffers idx) IN_BUFFER_SIZE
    if first.1 = -1 then
      { retval := -1, pool := setInBuffer acquired.2 idx first.2.1, inbox := first.2.2
        trace := [Event.recv Fd.cmd IN_BUFFER_SIZE], dest := none }
    else
      let client_data_addr := cstr first.2.1
      -- memset(in_buffer, 0, IN_BUFFER_SIZE)
      let cleared := setInBuffer acquired.2 idx (zeroed IN_BUFFER_SIZE)
      if !hs.sendAddr then
        { retval := -1, pool := cleared, inbox := first.2.2
          trace := [Event.recv Fd.cmd IN_BUFFER_SIZE, Event.send Fd.cmd ACK_ADDR], dest := none }
      else
        let second := recv first.2.2 (zeroed IN_BUFFER_SIZE) IN_BUFFER_SIZE
        if second.1 = -1 then
          { retval := -1, pool := setInBuffer cleared idx second.2.1, inbox := second.2.2
            trace := [Event.recv Fd.cmd IN_BUFFER_SIZE, Event.send Fd.cmd ACK_ADDR,
                      Event.recv Fd.cmd IN_BUFFER_SIZE]
            dest := none }
        else
          let client_data_port := cstr second.2.1
          if !hs.sendPort then
            { retval := -1, pool := setInBuffer cleared idx second.2.1, inbox := second.2.2
              trace := [Event.recv Fd.cmd IN_BUFFER_SIZE, Event.send Fd.cmd ACK_ADDR,
                        Event.recv Fd.cmd IN_BUFFER_SIZE, Event.send Fd.cmd ACK_PORT]
              dest := none }
          else
            { retval := 0, pool := unlock (setInBuffer cleared idx second.2.1) idx
              inbox := second.2.2
              trace := [Event.recv Fd.cmd IN_BUFFER_SIZE, Event.send Fd.cmd ACK_ADDR,
                        Event.recv Fd.cmd IN_BUFFER_SIZE, Event.send Fd.cmd ACK_PORT]
              dest := some (client_data_addr, client_data_port) }
  else
    { retval := -1, pool := pool, inbox := inbox
      trace := [Event.console Console.couldntGetInfo], dest := none }

/-! ## Control loop and worker thread -/

/-- What one evaluation of the loop test of `ctrlLoop`, and the iteration it admits, observe. -/
structure Tick where
  /-- The value of `SERVER_DISCONNECT` read by the loop test. -/
  shutdown : Bool
  /-- Whether `FD_ISSET(worker_cmd_fd, &read_fds)` holds after `select`. -/
  readable : Bool
  /-- The system calls of the command dispatched in this iteration. -/
  world : World
  /-- What the other threads did to the pool since the previous iteration. -/
  others : Pool → Pool

/-- How a run over a finite schedule stands at its end: the function returned (for the worker
thread: left through `pthread_exit`), the process faulted on a null pointer, or the loop is
still running when the schedule is used up. -/
inductive Finish where
  | done
  | faulted
  | running
  deriving DecidableEq, Repr

/-- What `ctrlLoop` leaves. -/
structure Looped where
  finish : Finish
  connection_status : Int
  pool : Pool
  inbox : Inbox
  trace : List Event

/-- The function `sendKillToClient`. -/
def sendKillToClient : List Event := [Event.send Fd.cmd SERVER_KILL_MESSAGE]

/-- The `while` loop of `ctrlLoop` and the statement after it, entered with the given
`connection_status`.  The loop test reads `SERVER_DISCONNECT` only when `connection_status`
is not `CLIENT_DISCONNECTED`. -/
def ctrlLoopFrom (connection_status : Int) (pool : Pool) (inbox : Inbox) : List Tick → Looped
  | [] =>
      if connection_status ≠ CLIENT_DISCONNECTED then
        { finish := Finish.running, connection_status := connection_status
          pool := pool, inbox := inbox, trace := [] }
      else
        { finish := Finish.done, connection_status := connection_status
          pool := pool, inbox := inbox, trace := [] }
  | t :: rest =>
      if connection_status ≠ CLIENT_DISCONNECTED ∧ t.shutdown = false then
        if t.readable then
          let cmd := handleClientCmd (t.others pool) inbox t.world
          match cmd.retval with
          | none =>
              { finish := Finish.faulted, connection_status := connection_status
                pool := cmd.pool, inbox := cmd.inbox, trace := Event.dispatch :: cmd.trace }
          | some status =>
              let later := ctrlLoopFrom status cmd.pool cmd.inbox rest
              { later with trace := Event.dispatch :: cmd.trace ++ later.trace }
        else ctrlLoopFrom connection_status (t.others pool) inbox rest
      else
        { finish := Finish.done, connection_status := connection_status
          pool := pool, inbox := inbox
          trace := if connection_status ≠ CLIENT_DISCONNECTED then sendKillToClient else [] }

/-- The function `ctrlLoop`. -/
def ctrlLoop (pool : Pool) (inbox : Inbox) (ticks : List Tick) : Looped :=
  ctrlLoopFrom 0 pool inbox ticks

/-- The function `workerThreadComplete`, which does not return: after `close` it reads
`client_data_socket_info[0]`, a null dereference when the argument is `NULL`, and otherwise
ends in `pthread_exit`. -/
def workerThreadComplete (client_data_socket_info : Option (List Nat × List Nat)) :
    Finish × List Event :=
  match client_data_socket_info with
  | none => (Finish.faulted, [Event.close Fd.cmd])
  | some _ => (Finish.done, [Event.close Fd.cmd])

/-- What a run of `worker_thread` leaves. -/
structure Session where
  finish : Finish
  pool : Pool
  inbox : Inbox
  trace : List Event

/-- The function `worker_thread`. -/
def worker_thread (pool : Pool) (inbox : Inbox) (hs : Handshake) (ticks : List Tick) : Session :=
  let info := getClientDataSocketInfo pool inbox hs
  if info.retval = -1 then
    let ended := workerThreadComplete none
    { finish := ended.1, pool := info.pool, inbox := info.inbox
      trace := info.trace ++ Event.console Console.failedToGetInfo :: ended.2 }
  else
    let looped := ctrlLoop info.pool info.inbox ticks
    match looped.finish with
    | Finish.done =>
        let ended := workerThreadComplete info.dest
        { finish := ended.1, pool := looped.pool, inbox := looped.inbox
          trace := info.trace ++ Event.console Console.workerConnected :: looped.trace ++ ended.2 }
    | stopped =>
        { finish := stopped, pool := looped.pool, inbox := looped.inbox
          trace := info.trace ++ Event.console Console.workerConnected :: looped.trace }

/-! ## Command line

`atoi` is the C library's: it skips white space, reads an optional sign and the decimal
digits that follow, and ignores the rest of the string.  Where the number does not fit, the
model follows glibc on a 64-bit system, whose `atoi(s)` is `(int) strtol(s, NULL, 10)`:
`strtol` saturates at `LONG_MIN` and `LONG_MAX`, and the conversion to `int` keeps the low
32 bits. -/

/-- The C library's `isspace` in the C locale: space, `\t`, `\n`, `\v`, `\f`, `\r`. -/
def isspace (c : Nat) : Bool := c == 32 || (9 ≤ c && c ≤ 13)

/-- The C library's `isdigit`: `'0'` to `'9'`. -/
def isdigit (c : Nat) : Bool := 48 ≤ c && c ≤ 57

/-- The number written by the decimal digits at the start of a string, continuing from the
value `acc` of the digits already read. -/
def digitsValue (acc : Nat) : List Nat → Nat
  | [] => acc
  | c :: rest => if isdigit c then digitsValue (acc * 10 + (c - 48)) rest else acc

def LONG_MAX : Int := 9223372036854775807
def LONG_MIN : Int := -9223372036854775808

/-- The C library's `strtol(s, NULL, 10)`. -/
def strtol (s : List Nat) : Int :=
  match s.dropWhile isspace with
  | 45 :: digits => max LONG_MIN (-(digitsValue 0 digits : Int))     -- '-'
  | 43 :: digits => min LONG_MAX (digitsValue 0 digits : Int)        -- '+'
  | digits => min LONG_MAX (digitsValue 0 digits : Int)

/-- The conversion of a `long` to `int`: the low 32 bits, read as two's complement. -/
def toInt32 (v : Int) : Int := (v + 2147483648) % 4294967296 - 2147483648

/-- The C library's `atoi`. -/
def atoi (s : List Nat) : Int := toInt32 (strtol s)

/-- The function `getValidPort`, over the argument vector (`argc` is its length).  The result
is the returned `port_str`, or the status of the `exit` call that ends the process. -/
def getValidPort (argv : List (List Nat)) : Except Nat (List Nat) :=
  if argv.length < 2 then Except.error 1
  else
    let port_str := argv.getD 1 []
    let port := atoi port_str
    if port_str.head? = some 48 ∨ port ≠ 0 then Except.ok port_str   -- port_str[0] == '0'
    else Except.error 1

/-! ## Borrowers of the pool

The pool itself records only whether a slot is locked.  To speak about who holds a slot, the
acquire and release calls of the sessions are replayed with a record of the slot each
successful `acquireFreeIOMutex` handed to its caller. -/

/-- The pool `initializeServer` leaves: every mutex initialised and unlocked, the buffers
freshly allocated with whatever bytes they hold. -/
def initialPool (in_buffers out_buffers : Nat → List Nat) : Pool :=
  { io_mutexes := fun _ => false, in_buffers := in_buffers, out_buffers := out_buffers }

/-- A call on the pool by a borrower: `acquireFreeIOMutex()`, or the
`pthread_mutex_unlock` of a slot. -/
inductive PoolOp where
  | acquire (borrower : Nat)
  | release (borrower : Nat) (slot : Nat)

/-- The pool together with the pairs `(borrower, slot)` of the slots handed out and not yet
given back. -/
structure Lending where
  pool : Pool
  holders : List (Nat × Nat)

/-- One call on the pool.  A borrower unlocks only a slot it was handed, as `handleClientCmd`
and `getClientDataSocketInfo` do. -/
def Lending.step (s : Lending) : PoolOp → Lending
  | PoolOp.acquire b =>
      let acquired := acquireFreeIOMutex s.pool
      if acquired.1 ≠ -1 then
        { pool := acquired.2, holders := (b, acquired.1.toNat) :: s.holders }
      else { s with pool := acquired.2 }
  | PoolOp.release b slot =>
      if (b, slot) ∈ s.holders then
        { pool := unlock s.pool slot, holders := s.holders.filter (fun h => h ≠ (b, slot)) }
      else s

/-- The state after a sequence of calls on the pool `initializeServer` leaves. -/
def Lending.run (in_buffers out_buffers : Nat → List Nat) (ops : List PoolOp) : Lending :=
  ops.foldl Lending.step { pool := initialPool in_buffers out_buffers, holders := [] }

/-! ## Notions used in the statements -/

/-- The invariant of the lending record: every slot on record is locked, and no slot is on
record twice. -/
def Lending.Inv (s : Lending) : Prop :=
  (∀ h ∈ s.holders, s.pool.io_mutexes h.2 = true) ∧ (s.holders.map Prod.snd).Nodup

/-- The pool after `acquireFreeIOMutex` has locked slot `i`. -/
def lockedAt (pool : Pool) (i : Nat) : Pool :=
  { io_mutexes := Function.update pool.io_mutexes i true
    in_buffers := Function.update pool.in_buffers i (zeroed IN_BUFFER_SIZE)
    out_buffers := Function.update pool.out_buffers i (zeroed OUT_BUFFER_SIZE) }

/-- The input buffer of `handleClientCmd` after its `recv` into a zeroed buffer. -/
def receivedBuffer (inbox : Inbox) : List Nat :=
  (recv inbox (zeroed IN_BUFFER_SIZE) IN_BUFFER_SIZE).2.1

/-- The working directory can be opened, and so can every file that `directoryContains`
finds in it: the condition under which the GET handler passes no null pointer on. -/
def World.opens (w : World) : Prop :=
  ∃ entries, w.opendir = some entries
    ∧ ∀ name, directoryContains entries name = true → ∃ content, w.fopen name = some content

/-- An event a command handler can produce: anything but a call of `handleClientCmd` and
a send of `@@SERVER_KILL` on the control connection. -/
def Event.inCommand (e : Event) : Prop :=
  e ≠ Event.dispatch ∧ e ≠ Event.send Fd.cmd SERVER_KILL_MESSAGE

/-- The number of calls of `handleClientCmd` in a trace. -/
def dispatches : List Event → Nat
  | [] => 0
  | Event.dispatch :: rest => dispatches rest + 1
  | _ :: rest => dispatches rest

/-- The four calls of a completed handshake, in order. -/
def handshakeTrace : List Event :=
  [Event.recv Fd.cmd IN_BUFFER_SIZE, Event.send Fd.cmd ACK_ADDR,
   Event.recv Fd.cmd IN_BUFFER_SIZE, Event.send Fd.cmd ACK_PORT]

/-- A numeric string: a non-empty string of decimal digits. -/
def isNumeric (s : List Nat) : Prop := s ≠ [] ∧ ∀ c ∈ s, isdigit c = true

/-! ## Concrete inputs -/

/-- The program name `./server`, as `argv[0]`. -/
def programName : List Nat := [46, 47, 115, 101, 114, 118, 101, 114]


/-- A pool right after start-up, all buffers zero. -/
def freshPool : Pool :=
  initialPool (fun _ => zeroed IN_BUFFER_SIZE) (fun _ => zeroed OUT_BUFFER_SIZE)

/-- A pool of which every slot is locked. -/
def fullPool : Pool :=
  { io_mutexes := fun _ => true
    in_buffers := fun _ => zeroed IN_BUFFER_SIZE, out_buffers := fun _ => zeroed OUT_BUFFER_SIZE }

/-- A working directory with the entries `a` and `b`; the file `a` holds the one byte `a`,
every other file the two bytes `hi`.  The client's data socket can be reached. -/
def smallWorld : World :=
  { getaddrinfo := true, connect := true
    opendir := some [[97], [98]]
    fopen := fun name => if name = [97] then some [97] else some [104, 105]
    past := 0 }

/-- The input buffer holding the command `-g a`. -/
def getA : List Nat := [45, 103, 32, 97] ++ zeroed 124

/-- The input buffer holding the command `-g c`. -/
def getC : List Nat := [45, 103, 32, 99] ++ zeroed 124

/-- A file of 4097 bytes: a zero byte, then 4096 times the byte `a`. -/
def zeroFirstFile : List Nat := 0 :: List.replicate 4096 97

/-- A working directory with the one entry `a`, the file `zeroFirstFile`. -/
def zeroFirstWorld : World :=
  { getaddrinfo := true, connect := true
    opendir := some [[97]]
    fopen := fun _ => some zeroFirstFile
    past := 0 }

/-- A pool of which slots 0 and 1 are locked and slots 2, 3 and 4 are free. -/
def twoHeldPool : Pool :=
  { io_mutexes := fun i => decide (i < 2)
    in_buffers := fun _ => [1, 2, 3], out_buffers := fun _ => [4, 5, 6] }

/-- An iteration of the control loop at which the shutdown flag is read as set. -/
def shutdownTick : Tick :=
  { shutdown := true, readable := false, world := smallWorld, others := id }

/-! ## Lemmas on the pool -/

theorem acquireScan_spec (io_mutexes : Nat → Bool) (idx : Nat) :
    ((acquireScan io_mutexes idx).1 = 1 ∧ idx ≤ (acquireScan io_mutexes idx).2
        ∧ (acquireScan io_mutexes idx).2 < NUM_BUFFERS
        ∧ io_mutexes (acquireScan io_mutexes idx).2 = false
        ∧ ∀ j, idx ≤ j → j < (acquireScan io_mutexes idx).2 → io_mutexes j = true)
    ∨ ((acquireScan io_mutexes idx).1 = -1
        ∧ ∀ j, idx ≤ j → j < NUM_BUFFERS → io_mutexes j = true) := by
  induction idx using acquireScan.induct io_mutexes with
  | case1 idx hlt hfree =>
      have e : acquireScan io_mutexes idx = (1, idx) := by
        rw [acquireScan]; simp [hlt, hfree]
      rw [e]
      exact Or.inl ⟨rfl, le_refl _, hlt, hfree, fun j h1 h2 => absurd h1 (by omega)⟩
  | case2 idx hlt hheld ih =>
      have hidx : io_mutexes idx = true := by simpa using hheld
      have e : acquireScan io_mutexes idx = acquireScan io_mutexes (idx + 1) := by
        rw [acquireScan]; simp [hlt, hidx]
      rw [e]
      rcases ih with ⟨h1, h2, h3, h4, h5⟩ | ⟨h1, h2⟩
      · left
        refine ⟨h1, by omega, h3, h4, fun j hj1 hj2 => ?_⟩
        by_cases hj : j = idx
        · subst hj; exact hidx
        · exact h5 j (by omega) hj2
      · right
        refine ⟨h1, fun j hj1 hj2 => ?_⟩
        by_cases hj : j = idx
        · subst hj; exact hidx
        · exact h2 j (by omega) hj2
  | case3 idx hge =>
      have e : acquireScan io_mutexes idx = (-1, idx) := by
        rw [acquireScan]; simp [hge]
      rw [e]
      exact Or.inr ⟨rfl, fun j h1 h2 => absurd h2 (by omega)⟩

/-- The two outcomes of `acquireFreeIOMutex`: the lowest free slot, locked and with its
buffers zeroed, or -1 and the pool as it was when every slot is locked. -/
theorem acquireFreeIOMutex_cases (pool : Pool) :
    (∃ i, i < NUM_BUFFERS ∧ pool.io_mutexes i = false
        ∧ (∀ j, j < i → pool.io_mutexes j = true)
        ∧ acquireFreeIOMutex pool =
            ((i : Int),
             { io_mutexes := Function.update pool.io_mutexes i true
               in_buffers := Function.update pool.in_buffers i (zeroed IN_BUFFER_SIZE)
               out_buffers := Function.update pool.out_buffers i (zeroed OUT_BUFFER_SIZE) }))
    ∨ ((∀ j, j < NUM_BUFFERS → pool.io_mutexes j = true)
        ∧ acquireFreeIOMutex pool = (-1, pool)) := by
  rcases acquireScan_spec pool.io_mutexes 0 with ⟨h1, _, h3, h4, h5⟩ | ⟨h1, h2⟩
  · left
    refine ⟨(acquireScan pool.io_mutexes 0).2, h3, h4, fun j hj => h5 j (Nat.zero_le _) hj, ?_⟩
    simp [acquireFreeIOMutex, h1]
  · right
    refine ⟨fun j hj => h2 j (Nat.zero_le _) hj, ?_⟩
    simp only [acquireFreeIOMutex, h1]
    rfl

theorem acquireFreeIOMutex_free (pool : Pool) (i : Nat) (hi : i < NUM_BUFFERS)
    (hfree : pool.io_mutexes i = false) (hlow : ∀ j, j < i → pool.io_mutexes j = true) :
    acquireFreeIOMutex pool =
      ((i : Int),
       { io_mutexes := Function.update pool.io_mutexes i true
         in_buffers := Function.update pool.in_buffers i (zeroed IN_BUFFER_SIZE)
         out_buffers := Function.update pool.out_buffers i (zeroed OUT_BUFFER_SIZE) }) := by
  rcases acquireFreeIOMutex_cases pool with ⟨k, hk, hkfree, hklow, e⟩ | ⟨hall, _⟩
  · have : k = i := by
      rcases Nat.lt_trichotomy k i with h | h | h
      · rw [hlow k h] at hkfree; cases hkfree
      · exact h
      · rw [hklow i h] at hfree; cases hfree
    subst this; exact e
  · rw [hall i hi] at hfree; cases hfree

theorem acquireFreeIOMutex_full (pool : Pool)
    (hall : ∀ j, j < NUM_BUFFERS → pool.io_mutexes j = true) :
    acquireFreeIOMutex pool = (-1, pool) := by
  rcases acquireFreeIOMutex_cases pool with ⟨k, hk, hkfree, _, _⟩ | ⟨_, e⟩
  · rw [hall k hk] at hkfree; cases hkfree
  · exact e

/-- Some slot is free exactly when there is a lowest free slot. -/
theorem exists_lowest_free (pool : Pool) (h : ∃ i, i < NUM_BUFFERS ∧ pool.io_mutexes i = false) :
    ∃ i, i < NUM_BUFFERS ∧ pool.io_mutexes i = false ∧ ∀ j, j < i → pool.io_mutexes j = true := by
  rcases acquireFreeIOMutex_cases pool with ⟨k, hk, hkfree, hklow, _⟩ | ⟨hall, _⟩
  · exact ⟨k, hk, hkfree, hklow⟩
  · obtain ⟨i, hi, hfree⟩ := h
    rw [hall i hi] at hfree; cases hfree

theorem Lending.step_inv (s : Lending) (op : PoolOp) (hs : s.Inv) : (s.step op).Inv := by
  obtain ⟨hlocked, hnodup⟩ := hs
  cases op with
  | acquire b =>
      rcases acquireFreeIOMutex_cases s.pool with ⟨i, _, hfree, _, e⟩ | ⟨_, e⟩
      · have hne : ((i : Int) ≠ -1) := by omega
        simp only [Lending.step, e, hne, ne_eq, not_false_eq_true, if_true, Int.toNat_ofNat]
        constructor
        · intro h hh
          rcases List.mem_cons.mp hh with rfl | hmem
          · simp
          · have hl := hlocked h hmem
            have : h.2 ≠ i := by
              intro hEq; rw [hEq, hfree] at hl; cases hl
            simp [Function.update, this, hl]
        · rw [List.map_cons, List.nodup_cons]
          refine ⟨?_, hnodup⟩
          intro hin
          obtain ⟨h, hmem, hEq⟩ := List.mem_map.mp hin
          have hl := hlocked h hmem
          rw [hEq] at hl
          simp only at hl
          rw [hfree] at hl; cases hl
      · simp only [Lending.step, e]
        exact ⟨by simpa using hlocked, hnodup⟩
  | release b slot =>
      by_cases hmem : (b, slot) ∈ s.holders
      · simp only [Lending.step, hmem, if_true]
        constructor
        · intro h hh
          obtain ⟨hin, hne⟩ := List.mem_filter.mp hh
          have hne2 : h ≠ (b, slot) := by simpa using hne
          have hslot : h.2 ≠ slot := by
            intro hEq
            apply hne2
            exact List.inj_on_of_nodup_map hnodup hin hmem (by simpa using hEq)
          simp [unlock, Function.update, hslot, hlocked h hin]
        · exact (List.Nodup.sublist (List.Sublist.map _ (List.filter_sublist _)) hnodup)
      · simp only [Lending.step, hmem, if_false]
        exact ⟨hlocked, hnodup⟩

theorem Lending.foldl_inv (ops : List PoolOp) (s : Lending) (hs : s.Inv) :
    (ops.foldl Lending.step s).Inv := by
  induction ops generalizing s with
  | nil => exact hs
  | cons op rest ih => exact ih _ (Lending.step_inv s op hs)

theorem Lending.run_inv (in_buffers out_buffers : Nat → List Nat) (ops : List PoolOp) :
    (Lending.run in_buffers out_buffers ops).Inv :=
  Lending.foldl_inv ops _ ⟨by simp, by simp⟩

/-! ## Lemmas on C strings and buffers -/

theorem cstr_cons_zero (t : List Nat) : cstr (0 :: t) = [] := by
  simp [cstr]

theorem cstr_cons_ne (a : Nat) (t : List Nat) (ha : a ≠ 0) : cstr (a :: t) = a :: cstr t := by
  simp [cstr, ha]

theorem cstr_replicate_zero (k : Nat) : cstr (List.replicate k 0) = [] := by
  cases k with
  | zero => rfl
  | succ k => rw [List.replicate_succ, cstr_cons_zero]

/-- A string without zero bytes followed by zero bytes is read back as itself. -/
theorem cstr_append_zeros (l : List Nat) (k : Nat) (hl : ∀ c ∈ l, c ≠ 0) :
    cstr (l ++ List.replicate k 0) = l := by
  induction l with
  | nil => simpa using cstr_replicate_zero k
  | cons a t ih =>
      rw [List.cons_append, cstr_cons_ne a _ (hl a (List.mem_cons_self a t)),
        ih (fun c hc => hl c (List.mem_cons_of_mem a hc))]

/-- A buffer whose first byte is zero, or that is empty, holds the empty string. -/
theorem cstr_eq_nil_iff (b : List Nat) : cstr b = [] ↔ b = [] ∨ b.head? = some 0 := by
  cases b with
  | nil => simp [cstr]
  | cons a t =>
      by_cases ha : a = 0
      · subst ha; simp [cstr]
      · simp [cstr, ha]

theorem strcmp_empty (b : List Nat) : strcmp b [0] = true ↔ cstr b = [] := by
  simp [strcmp, cstr]

/-- The comparison `strncmp(b, "xy", 2) == 0` looks at the first two bytes of the buffer. -/
theorem strncmp_two (b : List Nat) (x y : Nat) (hx : x ≠ 0) (hy : y ≠ 0) :
    strncmp b [x, y] 2 = true ↔ b.take 2 = [x, y] := by
  have hp : cstr [x, y] = [x, y] := by simp [cstr, hx, hy]
  simp only [strncmp, hp, List.take_succ_cons, List.take_zero, beq_iff_eq]
  rcases b with _ | ⟨a, _ | ⟨c, t⟩⟩
  · simp [cstr]
  · by_cases ha : a = 0 <;> simp [cstr, ha]
  · by_cases ha : a = 0
    · subst ha
      simp only [cstr_cons_zero, List.take_nil, List.take_succ_cons, List.take_zero]
      constructor
      · intro h; cases h
      · intro h; injection h with h1 _; exact absurd h1.symm hx
    · by_cases hc : c = 0
      · subst hc
        rw [cstr_cons_ne a _ ha, cstr_cons_zero]
        simp only [List.take_succ_cons, List.take_nil, List.take_zero]
        constructor
        · intro h; injection h with _ h2; cases h2
        · intro h; injection h with _ h2; injection h2 with h3 _; exact absurd h3.symm hy
      · rw [cstr_cons_ne a _ ha, cstr_cons_ne c _ hc]
        simp [List.take_succ_cons]

/-- The buffer a successful `recv` of the bytes `m` leaves. -/
theorem recv_some (m : List Nat) (rest : Inbox) (buf : List Nat) (size : Nat) :
    (recv (some m :: rest) buf size).2.1 = m.take size ++ buf.drop (m.take size).length := by
  simp only [recv]
  by_cases h : m.length ≤ size
  · simp [h, List.take_of_length_le h]
  · have hlen : (m.take size).length = size := by
      rw [List.length_take]; omega
    simp only [h, if_false, hlen]

/-- The first two bytes of the zeroed input buffer after the bytes `m` have been received
are the first two bytes of `m`, as far as a comparison with two non-zero bytes goes. -/
theorem take_two_received (m : List Nat) (x y : Nat) (hx : x ≠ 0) (hy : y ≠ 0) :
    (m.take IN_BUFFER_SIZE
        ++ (zeroed IN_BUFFER_SIZE).drop (m.take IN_BUFFER_SIZE).length).take 2 = [x, y]
      ↔ m.take 2 = [x, y] := by
  rcases m with _ | ⟨a, _ | ⟨c, t⟩⟩
  · simp only [List.take_nil, List.length_nil, List.drop_zero, List.nil_append]
    have : (zeroed IN_BUFFER_SIZE).take 2 = [0, 0] := by decide
    rw [this]
    constructor
    · intro h; injection h with h1 _; exact absurd h1.symm hx
    · intro h; cases h
  · have e : (List.take IN_BUFFER_SIZE [a]
        ++ (zeroed IN_BUFFER_SIZE).drop (List.take IN_BUFFER_SIZE [a]).length).take 2
        = [a, 0] := by
      simp [IN_BUFFER_SIZE, zeroed, List.take_succ_cons, List.replicate_succ]
    rw [e]
    constructor
    · intro h; injection h with _ h2; injection h2 with h3 _; exact absurd h3.symm hy
    · intro h; simp at h
  · simp [IN_BUFFER_SIZE, List.take_succ_cons]

/-! ## Lemmas on the dispatcher -/

/-- The body of `handleClientCmd` when slot `i` is the lowest free slot. -/
theorem handleClientCmd_free (pool : Pool) (inbox : Inbox) (w : World) (i : Nat)
    (hi : i < NUM_BUFFERS) (hfree : pool.io_mutexes i = false)
    (hlow : ∀ j, j < i → pool.io_mutexes j = true) :
    handleClientCmd pool inbox w =
      (let in_buffer := receivedBuffer inbox
       let left := (recv inbox (zeroed IN_BUFFER_SIZE) IN_BUFFER_SIZE).2.2
       let busy := setInBuffer (lockedAt pool i) i in_buffer
       if strcmp in_buffer [0] then
         { retval := some (-1), pool := unlock busy i, inbox := left
           trace := [Event.recv Fd.cmd IN_BUFFER_SIZE, Event.console Console.clientDisconnected] }
       else if validCommand in_buffer then
         let conn := establishDataConnection w
         let start :=
           Event.recv Fd.cmd IN_BUFFER_SIZE :: Event.console Console.commandReceived :: conn.2
         if conn.1 then
           let first : Handled :=
             if strncmp in_buffer GET_MESSAGE 2 then
               handleGetCmd w in_buffer (zeroed OUT_BUFFER_SIZE)
             else if strncmp in_buffer LIST_MESSAGE 2 then
               { trace := [Event.console Console.handlingList]
                 out_buffer := zeroed OUT_BUFFER_SIZE, returned := true }
             else { trace := [], out_buffer := zeroed OUT_BUFFER_SIZE, returned := true }
           let used := setOutBuffer busy i first.out_buffer
           if first.returned then
             { retval := some 0, pool := unlock used i, inbox := left
               trace := start ++ first.trace ++ handleListCmd w ++ [Event.close Fd.data] }
           else
             { retval := none, pool := used, inbox := left, trace := start ++ first.trace }
         else
           { retval := some 0, pool := unlock busy i, inbox := left
             trace := start ++ [Event.close Fd.data] }
       else
         { retval := some 1, pool := unlock (setOutBuffer busy i handleInvalidCmd.2) i
           inbox := left
           trace := Event.recv Fd.cmd IN_BUFFER_SIZE :: handleInvalidCmd.1 }) := by
  have hne : ((i : Int) = -1) = False := by
    apply eq_false; omega
  unfold handleClientCmd
  rw [acquireFreeIOMutex_free pool i hi hfree hlow]
  simp only [ne_eq, hne, not_false_eq_true, if_true, Int.toNat_ofNat, Function.update_same,
    lockedAt, receivedBuffer]

/-- The body of `handleClientCmd` when every slot is locked. -/
theorem handleClientCmd_full (pool : Pool) (inbox : Inbox) (w : World)
    (hall : ∀ j, j < NUM_BUFFERS → pool.io_mutexes j = true) :
    handleClientCmd pool inbox w =
      { retval := some 1, pool := pool, inbox := inbox
        trace := [Event.console Console.noMutexAvailable] } := by
  unfold handleClientCmd
  rw [acquireFreeIOMutex_full pool hall]
  simp

/-- Locking a free slot and unlocking it again restores the lock state. -/
theorem unlock_lockedAt (pool : Pool) (i : Nat) (hfree : pool.io_mutexes i = false) :
    Function.update (Function.update pool.io_mutexes i true) i false = pool.io_mutexes := by
  rw [Function.update_idem, ← hfree, Function.update_eq_self]

/-- The function `sendError` sends the message itself: the zero bytes left in the output
buffer by `memset` terminate it. -/
theorem sendError_trace (fd : Fd) (error : List Nat) (hl : ∀ c ∈ error, c ≠ 0) :
    (sendError fd error).1 = [Event.send fd error] := by
  simp only [sendError, zeroed, List.drop_replicate]
  rw [cstr_append_zeros error _ hl]

theorem handleInvalidCmd_trace :
    handleInvalidCmd.1
      = [Event.console Console.invalidCommand, Event.send Fd.cmd ERROR_INVALID_COMMAND] := by
  simp only [handleInvalidCmd]
  rw [sendError_trace Fd.cmd ERROR_INVALID_COMMAND (by decide)]

/-- Whenever `handleClientCmd` returns, the lock state of the pool is what it was. -/
theorem handleClientCmd_locks (pool : Pool) (inbox : Inbox) (w : World) (rv : Int)
    (hret : (handleClientCmd pool inbox w).retval = some rv) :
    (handleClientCmd pool inbox w).pool.io_mutexes = pool.io_mutexes := by
  rcases acquireFreeIOMutex_cases pool with ⟨i, hi, hfree, hlow, _⟩ | ⟨hall, _⟩
  · rw [handleClientCmd_free pool inbox w i hi hfree hlow] at hret ⊢
    simp only [] at hret ⊢
    split_ifs at hret ⊢ <;>
      (simp only [unlock, setInBuffer, setOutBuffer, lockedAt]
       exact unlock_lockedAt pool i hfree)
  · rw [handleClientCmd_full pool inbox w hall]

/-- What the dispatcher does with a buffer that holds a non-empty string which is no valid
command. -/
theorem handleClientCmd_invalid_buffer (pool : Pool) (inbox : Inbox) (w : World)
    (hslot : ∃ i, i < NUM_BUFFERS ∧ pool.io_mutexes i = false)
    (hne : cstr (receivedBuffer inbox) ≠ [])
    (hinv : validCommand (receivedBuffer inbox) = false) :
    (handleClientCmd pool inbox w).retval = some 1
      ∧ (handleClientCmd pool inbox w).trace
          = [Event.recv Fd.cmd IN_BUFFER_SIZE, Event.console Console.invalidCommand,
             Event.send Fd.cmd ERROR_INVALID_COMMAND] := by
  obtain ⟨i, hi, hfree, hlow⟩ := exists_lowest_free pool hslot
  have hs : strcmp (receivedBuffer inbox) [0] = false := by
    rw [Bool.eq_false_iff, ne_eq, strcmp_empty]; exact hne
  rw [handleClientCmd_free pool inbox w i hi hfree hlow]
  simp only [hs, hinv, handleInvalidCmd_trace]
  simp

/-- What the dispatcher does with a buffer that holds the empty string. -/
theorem handleClientCmd_empty_buffer (pool : Pool) (inbox : Inbox) (w : World)
    (hslot : ∃ i, i < NUM_BUFFERS ∧ pool.io_mutexes i = false)
    (hnil : cstr (receivedBuffer inbox) = []) :
    (handleClientCmd pool inbox w).retval = some (-1)
      ∧ (handleClientCmd pool inbox w).trace
          = [Event.recv Fd.cmd IN_BUFFER_SIZE, Event.console Console.clientDisconnected] := by
  obtain ⟨i, hi, hfree, hlow⟩ := exists_lowest_free pool hslot
  have hs : strcmp (receivedBuffer inbox) [0] = true := (strcmp_empty _).mpr hnil
  rw [handleClientCmd_free pool inbox w i hi hfree hlow]
  simp only [hs]
  simp

/-- The buffer after the bytes `m` were received. -/
theorem receivedBuffer_some (m : List Nat) (rest : Inbox) :
    receivedBuffer (some m :: rest)
      = m.take IN_BUFFER_SIZE
          ++ (zeroed IN_BUFFER_SIZE).drop (m.take IN_BUFFER_SIZE).length := by
  rw [receivedBuffer, recv_some]

/-- The received string is empty exactly when nothing arrived or the first byte is zero. -/
theorem receivedBuffer_empty_iff (m : List Nat) (rest : Inbox) :
    cstr (receivedBuffer (some m :: rest)) = [] ↔ m = [] ∨ m.head? = some 0 := by
  rw [receivedBuffer_some, cstr_eq_nil_iff]
  cases m with
  | nil =>
      have : (zeroed IN_BUFFER_SIZE).head? = some 0 := by decide
      simp [this]
  | cons a t => simp [IN_BUFFER_SIZE, List.take_succ_cons]

theorem validCommand_received (m : List Nat) (rest : Inbox) :
    validCommand (receivedBuffer (some m :: rest)) = true
      ↔ m.take 2 = GET_MESSAGE ∨ m.take 2 = LIST_MESSAGE := by
  simp only [validCommand, Bool.or_eq_true, GET_MESSAGE, LIST_MESSAGE]
  rw [strncmp_two _ 45 103 (by decide) (by decide), strncmp_two _ 45 108 (by decide) (by decide),
    receivedBuffer_some, take_two_received m 45 103 (by decide) (by decide),
    take_two_received m 45 108 (by decide) (by decide)]

/-! ## Lemmas on the GET handler -/

theorem fread_length (rest : List Nat) : (fread rest).length = OUT_BUFFER_SIZE := by
  simp only [fread, zeroed, List.length_append, List.length_drop, List.length_replicate,
    List.length_take]
  omega

theorem fread_short (rest : List Nat) (h : rest.length < OUT_BUFFER_SIZE) :
    fread rest = rest ++ List.replicate (OUT_BUFFER_SIZE - rest.length) 0 := by
  simp only [fread, zeroed, List.take_of_length_le (Nat.le_of_lt h), List.drop_replicate]

theorem fread_long (rest : List Nat) (h : OUT_BUFFER_SIZE ≤ rest.length) :
    fread rest = rest.take OUT_BUFFER_SIZE := by
  have hlen : (rest.take OUT_BUFFER_SIZE).length = OUT_BUFFER_SIZE := by
    rw [List.length_take]; omega
  simp [fread, zeroed, hlen]

/-- A chunk that starts with a zero byte ends the loop. -/
theorem strlenOver_zero_first (t : List Nat) (past : Nat) : strlenOver (0 :: t) past = 0 := by
  simp [strlenOver, strlen, cstr_cons_zero]

theorem strlenOver_short (rest : List Nat) (past : Nat) (hnz : ∀ c ∈ rest, c ≠ 0)
    (h : rest.length < OUT_BUFFER_SIZE) : strlenOver (fread rest) past = rest.length := by
  have hlen := fread_length rest
  have hc : strlen (fread rest) = rest.length := by
    rw [strlen, fread_short rest h, cstr_append_zeros rest _ hnz]
  simp only [strlenOver, hc, hlen, h, if_true]

theorem strlenOver_long (rest : List Nat) (past : Nat) (hnz : ∀ c ∈ rest, c ≠ 0)
    (h : OUT_BUFFER_SIZE ≤ rest.length) :
    strlenOver (fread rest) past = OUT_BUFFER_SIZE + past := by
  have hlen := fread_length rest
  have hc : strlen (fread rest) = OUT_BUFFER_SIZE := by
    have hz : ∀ c ∈ rest.take OUT_BUFFER_SIZE, c ≠ 0 := fun c hc => hnz c (List.mem_of_mem_take hc)
    have := cstr_append_zeros (rest.take OUT_BUFFER_SIZE) 0 hz
    rw [List.replicate_zero, List.append_nil] at this
    rw [strlen, fread_long rest h, this, List.length_take]
    omega
  simp only [strlenOver, hc, hlen, Nat.lt_irrefl, if_false]

/-- A pass of the loop that is the last one. -/
theorem sendFile_stop (past : Nat) (rest : List Nat)
    (h : strlenOver (fread rest) past ≠ OUT_BUFFER_SIZE) :
    sendFile past rest = ([Event.send Fd.data (fread rest)], fread rest) := by
  rw [sendFile]; simp [h]

/-- A pass of the loop that is followed by another. -/
theorem sendFile_more (past : Nat) (rest : List Nat)
    (h : strlenOver (fread rest) past = OUT_BUFFER_SIZE) :
    sendFile past rest
      = (Event.send Fd.data (fread rest) :: (sendFile past (rest.drop OUT_BUFFER_SIZE)).1,
         (sendFile past (rest.drop OUT_BUFFER_SIZE)).2) := by
  rw [sendFile]; simp [h]

/-- Every `send` of the loop carries the whole output buffer of 4096 bytes, whatever was
read, and the loop makes at least one. -/
theorem sendFile_sizes (past : Nat) (rest : List Nat) :
    ∃ n, sendSizes Fd.data (sendFile past rest).1 = List.replicate (n + 1) OUT_BUFFER_SIZE := by
  induction rest using sendFile.induct past with
  | case1 rest h ih =>
      obtain ⟨n, hn⟩ := ih
      refine ⟨n + 1, ?_⟩
      rw [sendFile_more past rest h]
      simp only [sendSizes, if_true, hn, fread_length]
      simp [List.replicate_succ]
  | case2 rest h =>
      refine ⟨0, ?_⟩
      rw [sendFile_stop past rest h]
      simp [sendSizes, fread_length]

/-- The bytes the loop sends for a file without zero bytes: the file, then zero bytes up to
the next multiple of 4096. -/
theorem sendFile_sent (past : Nat) (rest : List Nat) (hnz : ∀ c ∈ rest, c ≠ 0)
    (hpast : rest.length < OUT_BUFFER_SIZE ∨ past = 0) :
    sentOn Fd.data (sendFile past rest).1
        = rest ++ List.replicate (OUT_BUFFER_SIZE - rest.length % OUT_BUFFER_SIZE) 0
      ∧ sendSizes Fd.data (sendFile past rest).1
        = List.replicate (rest.length / OUT_BUFFER_SIZE + 1) OUT_BUFFER_SIZE := by
  induction rest using sendFile.induct past with
  | case1 rest h ih =>
      have hlong : OUT_BUFFER_SIZE ≤ rest.length := by
        by_contra hlt
        rw [strlenOver_short rest past hnz (by omega)] at h
        omega
      have hp : past = 0 := by
        rcases hpast with hlt | hp
        · omega
        · exact hp
      have hnz2 : ∀ c ∈ rest.drop OUT_BUFFER_SIZE, c ≠ 0 :=
        fun c hc => hnz c (List.mem_of_mem_drop hc)
      obtain ⟨ih1, ih2⟩ := ih hnz2 (Or.inr hp)
      rw [sendFile_more past rest h]
      have hmod : (rest.drop OUT_BUFFER_SIZE).length % OUT_BUFFER_SIZE
          = rest.length % OUT_BUFFER_SIZE := by
        rw [List.length_drop]
        conv_rhs => rw [← Nat.sub_add_cancel hlong]
        rw [Nat.add_mod_right]
      have hdiv : (rest.drop OUT_BUFFER_SIZE).length / OUT_BUFFER_SIZE + 1
          = rest.length / OUT_BUFFER_SIZE := by
        rw [List.length_drop]
        conv_rhs => rw [← Nat.sub_add_cancel hlong]
        rw [Nat.add_div_right _ (by decide : 0 < OUT_BUFFER_SIZE)]
      constructor
      · simp only [sentOn, if_true, ih1, hmod]
        rw [fread_long rest hlong, ← List.append_assoc, List.take_append_drop]
      · simp only [sendSizes, if_true, ih2, fread_length, hdiv]
        rw [← List.replicate_succ]
  | case2 rest h =>
      have hshort : rest.length < OUT_BUFFER_SIZE := by
        by_contra hge
        rcases hpast with hlt | hp
        · exact hge hlt
        · rw [strlenOver_long rest past hnz (by omega), hp] at h
          exact h rfl
      rw [sendFile_stop past rest h]
      constructor
      · simp only [sentOn, if_true, List.append_nil]
        rw [fread_short rest hshort, Nat.mod_eq_of_lt hshort]
      · simp only [sendSizes, if_true, fread_length]
        rw [Nat.div_eq_of_lt hshort]
        rfl

theorem directoryContains_of_mem (entries : List (List Nat)) (file_name : List Nat)
    (h : file_name ∈ entries) : directoryContains entries file_name = true := by
  induction entries with
  | nil => cases h
  | cons d rest ih =>
      rw [directoryContains]
      rcases List.mem_cons.mp h with rfl | hmem
      · simp [strcmp]
      · rw [ih hmem]; simp

theorem cstr_idem (s : List Nat) : cstr (cstr s) = cstr s := by
  have := cstr_append_zeros (cstr s) 0 (fun c hc => by
    have := (List.mem_takeWhile_imp hc)
    simpa using this)
  simpa using this

/-- No entry name equal to the file name: `directoryContains` returns 0.  Entry names are C
strings, so they hold no zero byte. -/
theorem directoryContains_of_not_mem (entries : List (List Nat)) (buf : List Nat)
    (hnames : ∀ d ∈ entries, ∀ c ∈ d, c ≠ 0) (h : cstr buf ∉ entries) :
    directoryContains entries (cstr buf) = false := by
  induction entries with
  | nil => rfl
  | cons d rest ih =>
      rw [directoryContains]
      have hd : cstr d = d := by
        have := cstr_append_zeros d 0 (hnames d (List.mem_cons_self d rest))
        simpa using this
      have hne : d ≠ cstr buf := fun e => h (e ▸ List.mem_cons_self d rest)
      have hs : strcmp d (cstr buf) = false := by
        simp [strcmp, hd, cstr_idem, hne]
      rw [hs, ih (fun d hd => hnames d (List.mem_cons_of_mem _ hd))
        (fun hm => h (List.mem_cons_of_mem _ hm))]
      simp

@[simp] theorem sentOn_nil (fd : Fd) : sentOn fd [] = [] := rfl

@[simp] theorem sentOn_send (fd f : Fd) (bytes : List Nat) (rest : List Event) :
    sentOn fd (Event.send f bytes :: rest)
      = if f = fd then bytes ++ sentOn fd rest else sentOn fd rest := rfl

@[simp] theorem sentOn_recv (fd f : Fd) (size : Nat) (rest : List Event) :
    sentOn fd (Event.recv f size :: rest) = sentOn fd rest := rfl

@[simp] theorem sentOn_establish (fd : Fd) (rest : List Event) :
    sentOn fd (Event.establish :: rest) = sentOn fd rest := rfl

@[simp] theorem sentOn_close (fd f : Fd) (rest : List Event) :
    sentOn fd (Event.close f :: rest) = sentOn fd rest := rfl

@[simp] theorem sentOn_console (fd : Fd) (line : Console) (rest : List Event) :
    sentOn fd (Event.console line :: rest) = sentOn fd rest := rfl

@[simp] theorem sentOn_dispatch (fd : Fd) (rest : List Event) :
    sentOn fd (Event.dispatch :: rest) = sentOn fd rest := rfl

@[simp] theorem sendSizes_nil (fd : Fd) : sendSizes fd [] = [] := rfl

@[simp] theorem sendSizes_send (fd f : Fd) (bytes : List Nat) (rest : List Event) :
    sendSizes fd (Event.send f bytes :: rest)
      = if f = fd then bytes.length :: sendSizes fd rest else sendSizes fd rest := rfl

@[simp] theorem sendSizes_recv (fd f : Fd) (size : Nat) (rest : List Event) :
    sendSizes fd (Event.recv f size :: rest) = sendSizes fd rest := rfl

@[simp] theorem sendSizes_console (fd : Fd) (line : Console) (rest : List Event) :
    sendSizes fd (Event.console line :: rest) = sendSizes fd rest := rfl

/-- What `sendDataDisconnectToClient` sends. -/
theorem sendDataDisconnectToClient_data :
    sentOn Fd.data sendDataDisconnectToClient = END_DATA_MESSAGE
      ∧ sentOn Fd.cmd sendDataDisconnectToClient = []
      ∧ sendSizes Fd.data sendDataDisconnectToClient = [END_DATA_MESSAGE.length] := by
  simp [sendDataDisconnectToClient, sendEndData]

theorem sentOn_append (fd : Fd) (a b : List Event) :
    sentOn fd (a ++ b) = sentOn fd a ++ sentOn fd b := by
  induction a with
  | nil => rfl
  | cons e t ih =>
      cases e with
      | send f bytes =>
          by_cases hf : f = fd
          · simp [sentOn, hf, ih]
          · simp [sentOn, hf, ih]
      | _ => simpa [sentOn] using ih

theorem sendSizes_append (fd : Fd) (a b : List Event) :
    sendSizes fd (a ++ b) = sendSizes fd a ++ sendSizes fd b := by
  induction a with
  | nil => rfl
  | cons e t ih =>
      cases e with
      | send f bytes =>
          by_cases hf : f = fd
          · simp [sendSizes, hf, ih]
          · simp [sendSizes, hf, ih]
      | _ => simpa [sendSizes] using ih

/-- The loop of `handleGetCmd` sends on the data connection only. -/
theorem sendFile_cmd (past : Nat) (rest : List Nat) :
    sentOn Fd.cmd (sendFile past rest).1 = [] := by
  induction rest using sendFile.induct past with
  | case1 rest h ih =>
      rw [sendFile_more past rest h]
      simpa [sentOn] using ih
  | case2 rest h =>
      rw [sendFile_stop past rest h]
      simp [sentOn]

/-- The function `handleGetCmd` when the directory holds the file and it can be opened. -/
theorem handleGetCmd_found (w : World) (arg out : List Nat) (entries : List (List Nat))
    (content : List Nat) (hdir : w.opendir = some entries)
    (hin : cstr (arg.drop 3) ∈ entries) (hopen : w.fopen (cstr (arg.drop 3)) = some content) :
    handleGetCmd w arg out
      = { trace := Event.console Console.sendingFile :: (sendFile w.past content).1
            ++ sendDataDisconnectToClient
          out_buffer := (sendFile w.past content).2, returned := true } := by
  simp only [handleGetCmd, hdir, directoryContains_of_mem entries _ hin, if_true, hopen]

/-- The function `handleGetCmd` when no entry of the directory has the name asked for. -/
theorem handleGetCmd_missing (w : World) (arg out : List Nat) (entries : List (List Nat))
    (hdir : w.opendir = some entries) (hnames : ∀ d ∈ entries, ∀ c ∈ d, c ≠ 0)
    (hnot : cstr (arg.drop 3) ∉ entries) :
    (handleGetCmd w arg out).trace
        = [Event.console Console.fileNotFound, Event.send Fd.cmd ERROR_BAD_FILENAME,
           Event.send Fd.cmd END_DATA_MESSAGE, Event.send Fd.data END_DATA_MESSAGE,
           Event.recv Fd.data END_DATA_MESSAGE.length]
      ∧ (handleGetCmd w arg out).returned = true := by
  have hd := directoryContains_of_not_mem entries (arg.drop 3) hnames hnot
  simp only [handleGetCmd, hdir, hd, sendError_trace Fd.cmd ERROR_BAD_FILENAME (by decide),
    sendDataDisconnectToClient, sendEndData]
  simp

/-- A file whose first byte is zero: the loop of `handleGetCmd` stops after one pass. -/
theorem sendFile_zero_first (past : Nat) (t : List Nat) :
    sendFile past (0 :: t) = ([Event.send Fd.data (fread (0 :: t))], fread (0 :: t)) := by
  apply sendFile_stop
  have hu : fread (0 :: t)
      = 0 :: (t.take 4095 ++ (zeroed OUT_BUFFER_SIZE).drop ((0 :: t).take OUT_BUFFER_SIZE).length) := by
    simp only [fread, OUT_BUFFER_SIZE, List.take_succ_cons, List.cons_append]
  rw [hu, strlenOver_zero_first]
  decide

/-! ## Lemmas on the LIST handler -/

theorem sendEntries_data (entries : List (List Nat)) :
    sentOn Fd.data (sendEntries entries)
      = (entries.map (fun d_name => d_name ++ [10])).flatten := by
  induction entries with
  | nil => rfl
  | cons d rest ih => simp [sendEntries, sentOn, ih]

theorem sendEntries_cmd (entries : List (List Nat)) :
    sentOn Fd.cmd (sendEntries entries) = [] := by
  induction entries with
  | nil => rfl
  | cons d rest ih => simp [sendEntries, sentOn, ih]

theorem sendEntries_no_recv (entries : List (List Nat)) :
    ∀ e ∈ sendEntries entries, ∀ fd size, e ≠ Event.recv fd size := by
  induction entries with
  | nil => intro e he; cases he
  | cons d rest ih =>
      intro e he fd size
      simp only [sendEntries, List.mem_cons] at he
      rcases he with rfl | rfl | he
      · simp
      · simp
      · exact ih e he fd size

/-! ## Lemmas on valid commands -/

theorem handleGetCmd_returned (w : World) (arg out : List Nat) (hw : w.opens) :
    (handleGetCmd w arg out).returned = true := by
  obtain ⟨entries, hdir, hfiles⟩ := hw
  simp only [handleGetCmd, hdir]
  by_cases hc : directoryContains entries (cstr (arg.drop 3)) = true
  · obtain ⟨content, hcontent⟩ := hfiles _ hc
    simp [hc, hcontent]
  · simp [hc]

/-- What the dispatcher returns for a buffer that holds a valid command. -/
theorem handleClientCmd_valid_buffer (pool : Pool) (inbox : Inbox) (w : World)
    (hslot : ∃ i, i < NUM_BUFFERS ∧ pool.io_mutexes i = false)
    (hne : cstr (receivedBuffer inbox) ≠ [])
    (hvalid : validCommand (receivedBuffer inbox) = true) (hw : w.opens) :
    (handleClientCmd pool inbox w).retval = some 0 := by
  obtain ⟨i, hi, hfree, hlow⟩ := exists_lowest_free pool hslot
  have hs : strcmp (receivedBuffer inbox) [0] = false := by
    rw [Bool.eq_false_iff, ne_eq, strcmp_empty]; exact hne
  rw [handleClientCmd_free pool inbox w i hi hfree hlow]
  simp only [hs, hvalid, if_true, Bool.false_eq_true, if_false]
  by_cases hc : (establishDataConnection w).1 = true
  · by_cases hg : strncmp (receivedBuffer inbox) GET_MESSAGE 2 = true
    · simp [hc, hg, handleGetCmd_returned w _ _ hw]
    · by_cases hl : strncmp (receivedBuffer inbox) LIST_MESSAGE 2 = true
      · simp [hc, hg, hl]
      · simp [hc, hg, hl]
  · simp [hc]

/-- A valid command either yields status 0 or the call does not return. -/
theorem handleClientCmd_valid_buffer_cases (pool : Pool) (inbox : Inbox) (w : World)
    (hslot : ∃ i, i < NUM_BUFFERS ∧ pool.io_mutexes i = false)
    (hne : cstr (receivedBuffer inbox) ≠ [])
    (hvalid : validCommand (receivedBuffer inbox) = true) :
    (handleClientCmd pool inbox w).retval = some 0
      ∨ (handleClientCmd pool inbox w).retval = none := by
  obtain ⟨i, hi, hfree, hlow⟩ := exists_lowest_free pool hslot
  have hs : strcmp (receivedBuffer inbox) [0] = false := by
    rw [Bool.eq_false_iff, ne_eq, strcmp_empty]; exact hne
  rw [handleClientCmd_free pool inbox w i hi hfree hlow]
  simp only [hs, hvalid, if_true, Bool.false_eq_true, if_false]
  split_ifs <;> simp

theorem receivedBuffer_closed : receivedBuffer [] = zeroed IN_BUFFER_SIZE := rfl

theorem receivedBuffer_error (rest : Inbox) :
    receivedBuffer (none :: rest) = zeroed IN_BUFFER_SIZE := rfl

theorem cstr_zeroed (n : Nat) : cstr (zeroed n) = [] := cstr_replicate_zero n

/-- When the input buffer holds the empty string after the receive. -/
theorem receivedBuffer_empty_cases (inbox : Inbox) :
    cstr (receivedBuffer inbox) = []
      ↔ inbox = [] ∨ (∃ rest, inbox = none :: rest)
          ∨ ∃ m rest, inbox = some m :: rest ∧ (m = [] ∨ m.head? = some 0) := by
  rcases inbox with _ | ⟨_ | m, rest⟩
  · simp [receivedBuffer_closed, cstr_zeroed]
  · simp [receivedBuffer_error, cstr_zeroed]
  · rw [receivedBuffer_empty_iff]
    simp

/-! ## Lemmas on the control loop -/

/-- When the files of the working directory can be opened, `handleClientCmd` returns. -/
theorem handleClientCmd_returns (pool : Pool) (inbox : Inbox) (w : World) (hw : w.opens) :
    ∃ rv, (handleClientCmd pool inbox w).retval = some rv := by
  rcases acquireFreeIOMutex_cases pool with ⟨i, hi, hfree, _, _⟩ | ⟨hall, _⟩
  · have hslot : ∃ i, i < NUM_BUFFERS ∧ pool.io_mutexes i = false := ⟨i, hi, hfree⟩
    by_cases hnil : cstr (receivedBuffer inbox) = []
    · exact ⟨_, (handleClientCmd_empty_buffer pool inbox w hslot hnil).1⟩
    · by_cases hv : validCommand (receivedBuffer inbox) = true
      · exact ⟨_, handleClientCmd_valid_buffer pool inbox w hslot hnil hv hw⟩
      · exact ⟨_, (handleClientCmd_invalid_buffer pool inbox w hslot hnil (by simpa using hv)).1⟩
  · rw [handleClientCmd_full pool inbox w hall]; exact ⟨_, rfl⟩

theorem sendFile_events (past : Nat) (rest : List Nat) :
    ∀ e ∈ (sendFile past rest).1, ∃ bytes, e = Event.send Fd.data bytes := by
  induction rest using sendFile.induct past with
  | case1 rest h ih =>
      rw [sendFile_more past rest h]
      intro e he
      rcases List.mem_cons.mp he with rfl | he
      · exact ⟨_, rfl⟩
      · exact ih e he
  | case2 rest h =>
      rw [sendFile_stop past rest h]
      intro e he
      rcases List.mem_singleton.mp he with rfl
      exact ⟨_, rfl⟩

theorem sendEntries_events (entries : List (List Nat)) :
    ∀ e ∈ sendEntries entries, ∃ bytes, e = Event.send Fd.data bytes := by
  induction entries with
  | nil => intro e he; cases he
  | cons d rest ih =>
      intro e he
      simp only [sendEntries, List.mem_cons] at he
      rcases he with rfl | rfl | he
      · exact ⟨_, rfl⟩
      · exact ⟨_, rfl⟩
      · exact ih e he

theorem inCommand_send_data (bytes : List Nat) : (Event.send Fd.data bytes).inCommand :=
  ⟨by simp, by simp⟩

theorem inCommand_recv (fd : Fd) (size : Nat) : (Event.recv fd size).inCommand :=
  ⟨by simp, by simp⟩

theorem inCommand_console (line : Console) : (Event.console line).inCommand :=
  ⟨by simp, by simp⟩

theorem inCommand_close (fd : Fd) : (Event.close fd).inCommand := ⟨by simp, by simp⟩

theorem inCommand_establish : Event.establish.inCommand := ⟨by simp, by simp⟩

theorem inCommand_send_cmd (bytes : List Nat) (h : bytes ≠ SERVER_KILL_MESSAGE) :
    (Event.send Fd.cmd bytes).inCommand := ⟨by simp, by simpa using h⟩

theorem handleListCmd_inCommand (w : World) : ∀ e ∈ handleListCmd w, e.inCommand := by
  have hentries : ∀ entries, ∀ e ∈ sendEntries entries, e.inCommand := by
    intro entries e he
    obtain ⟨bytes, rfl⟩ := sendEntries_events entries e he
    exact inCommand_send_data bytes
  cases h : w.opendir with
  | none =>
      simp only [handleListCmd, h, List.forall_mem_cons]
      exact ⟨inCommand_console _, by simp⟩
  | some entries =>
      simp only [handleListCmd, h, List.cons_append, List.forall_mem_cons,
        List.forall_mem_append]
      exact ⟨inCommand_console _, hentries entries, inCommand_send_data _, inCommand_recv _ _,
        by simp⟩

theorem handleGetCmd_inCommand (w : World) (arg out : List Nat) :
    ∀ e ∈ (handleGetCmd w arg out).trace, e.inCommand := by
  have hfile : ∀ content, ∀ e ∈ (sendFile w.past content).1, e.inCommand := by
    intro content e he
    obtain ⟨bytes, rfl⟩ := sendFile_events w.past content e he
    exact inCommand_send_data bytes
  cases h : w.opendir with
  | none =>
      simp only [handleGetCmd, h, List.forall_mem_cons]
      exact ⟨inCommand_console _, by simp⟩
  | some entries =>
      by_cases hc : directoryContains entries (cstr (arg.drop 3)) = true
      · cases hf : w.fopen (cstr (arg.drop 3)) with
        | none =>
            simp only [handleGetCmd, h, hc, hf, if_true, List.forall_mem_cons]
            exact ⟨inCommand_console _, by simp⟩
        | some content =>
            simp only [handleGetCmd, h, hc, hf, if_true, sendDataDisconnectToClient,
              sendEndData, List.cons_append, List.forall_mem_cons, List.forall_mem_append,
              List.nil_append]
            exact ⟨inCommand_console _, hfile content, inCommand_send_data _,
              inCommand_recv _ _, by simp⟩
      · have hc2 : directoryContains entries (cstr (arg.drop 3)) = false := by simpa using hc
        simp only [handleGetCmd, h, hc2, Bool.false_eq_true, if_false,
          sendError_trace Fd.cmd ERROR_BAD_FILENAME (by decide),
          sendDataDisconnectToClient, sendEndData, List.cons_append, List.forall_mem_cons,
          List.forall_mem_append, List.nil_append]
        exact ⟨inCommand_console _, inCommand_send_cmd _ (by decide),
          inCommand_send_cmd _ (by decide), inCommand_send_data _, inCommand_recv _ _, by simp⟩

theorem establishDataConnection_inCommand (w : World) :
    ∀ e ∈ (establishDataConnection w).2, e.inCommand := by
  unfold establishDataConnection
  split_ifs <;> simp only [List.forall_mem_cons] <;>
    first
      | exact ⟨inCommand_establish, inCommand_console _, by simp⟩
      | exact ⟨inCommand_establish, inCommand_recv _ _, by simp⟩

/-- The trace of one `handleClientCmd` holds no call of `handleClientCmd` and no send of
`@@SERVER_KILL` on the control connection. -/
theorem handleClientCmd_inCommand (pool : Pool) (inbox : Inbox) (w : World) :
    ∀ e ∈ (handleClientCmd pool inbox w).trace, e.inCommand := by
  rcases acquireFreeIOMutex_cases pool with ⟨i, hi, hfree, hlow, _⟩ | ⟨hall, _⟩
  · rw [handleClientCmd_free pool inbox w i hi hfree hlow]
    have hconn := establishDataConnection_inCommand w
    have hlist := handleListCmd_inCommand w
    have hget := handleGetCmd_inCommand w (receivedBuffer inbox) (zeroed OUT_BUFFER_SIZE)
    have hnil : ∀ e ∈ ([] : List Event), e.inCommand := by simp
    simp only []
    split_ifs <;>
      simp only [handleInvalidCmd_trace, List.cons_append, List.forall_mem_cons,
        List.forall_mem_append, List.nil_append, List.append_nil, and_assoc]
    all_goals
      first
        | exact ⟨inCommand_recv _ _, inCommand_console _, hnil⟩
        | exact ⟨inCommand_recv _ _, inCommand_console _, hconn, hget, hlist,
            inCommand_close _, hnil⟩
        | exact ⟨inCommand_recv _ _, inCommand_console _, hconn, hget⟩
        | exact ⟨inCommand_recv _ _, inCommand_console _, hconn, inCommand_console _, hnil,
            hlist, inCommand_close _, hnil⟩
        | exact ⟨inCommand_recv _ _, inCommand_console _, hconn, hnil, hlist,
            inCommand_close _, hnil⟩
        | exact ⟨inCommand_recv _ _, inCommand_console _, hconn, hlist,
            inCommand_close _, hnil⟩
        | exact ⟨inCommand_recv _ _, inCommand_console _, hconn, inCommand_close _, hnil⟩
        | exact ⟨inCommand_recv _ _, inCommand_console _,
            inCommand_send_cmd _ (by decide), hnil⟩
        | exact ⟨inCommand_recv _ _, inCommand_console _, hconn, inCommand_console _, hnil⟩
        | exact ⟨inCommand_recv _ _, inCommand_console _, hconn⟩
  · rw [handleClientCmd_full pool inbox w hall]
    simp only [List.forall_mem_cons]
    exact ⟨inCommand_console _, by simp⟩

/-- The loop test of `ctrlLoop` fails: the loop is left and the kill message is sent unless
the client has disconnected. -/
theorem ctrlLoopFrom_exit (st : Int) (pool : Pool) (inbox : Inbox) (t : Tick) (rest : List Tick)
    (h : ¬ (st ≠ CLIENT_DISCONNECTED ∧ t.shutdown = false)) :
    ctrlLoopFrom st pool inbox (t :: rest)
      = { finish := Finish.done, connection_status := st, pool := pool, inbox := inbox
          trace := if st ≠ CLIENT_DISCONNECTED then sendKillToClient else [] } := by
  rw [ctrlLoopFrom, if_neg h]

/-- An iteration in which the control socket is not readable. -/
theorem ctrlLoopFrom_idle (st : Int) (pool : Pool) (inbox : Inbox) (t : Tick) (rest : List Tick)
    (h : st ≠ CLIENT_DISCONNECTED ∧ t.shutdown = false) (hr : t.readable = false) :
    ctrlLoopFrom st pool inbox (t :: rest) = ctrlLoopFrom st (t.others pool) inbox rest := by
  rw [ctrlLoopFrom, if_pos h]
  simp [hr]

/-- An iteration whose dispatch does not return. -/
theorem ctrlLoopFrom_fault (st : Int) (pool : Pool) (inbox : Inbox) (t : Tick)
    (rest : List Tick) (h : st ≠ CLIENT_DISCONNECTED ∧ t.shutdown = false)
    (hr : t.readable = true)
    (hret : (handleClientCmd (t.others pool) inbox t.world).retval = none) :
    ctrlLoopFrom st pool inbox (t :: rest)
      = { finish := Finish.faulted, connection_status := st
          pool := (handleClientCmd (t.others pool) inbox t.world).pool
          inbox := (handleClientCmd (t.others pool) inbox t.world).inbox
          trace := Event.dispatch :: (handleClientCmd (t.others pool) inbox t.world).trace } := by
  rw [ctrlLoopFrom, if_pos h]
  simp only [hr, if_true]
  rw [hret]

/-- An iteration whose dispatch returns `status`. -/
theorem ctrlLoopFrom_step (st : Int) (pool : Pool) (inbox : Inbox) (t : Tick)
    (rest : List Tick) (status : Int) (h : st ≠ CLIENT_DISCONNECTED ∧ t.shutdown = false)
    (hr : t.readable = true)
    (hret : (handleClientCmd (t.others pool) inbox t.world).retval = some status) :
    ctrlLoopFrom st pool inbox (t :: rest)
      = { ctrlLoopFrom status (handleClientCmd (t.others pool) inbox t.world).pool
            (handleClientCmd (t.others pool) inbox t.world).inbox rest with
          trace := Event.dispatch :: (handleClientCmd (t.others pool) inbox t.world).trace
            ++ (ctrlLoopFrom status (handleClientCmd (t.others pool) inbox t.world).pool
                  (handleClientCmd (t.others pool) inbox t.world).inbox rest).trace } := by
  rw [ctrlLoopFrom, if_pos h]
  simp only [hr, if_true]
  rw [hret]

/-- Induction over the iterations of the control loop. -/
theorem ctrlLoopFrom_cases (P : Int → Pool → Inbox → List Tick → Looped → Prop)
    (hnil : ∀ st pool inbox, P st pool inbox [] (ctrlLoopFrom st pool inbox []))
    (hexit : ∀ st pool inbox t rest, ¬ (st ≠ CLIENT_DISCONNECTED ∧ t.shutdown = false) →
      P st pool inbox (t :: rest)
        { finish := Finish.done, connection_status := st, pool := pool, inbox := inbox
          trace := if st ≠ CLIENT_DISCONNECTED then sendKillToClient else [] })
    (hidle : ∀ st pool inbox t rest, st ≠ CLIENT_DISCONNECTED → t.shutdown = false →
      t.readable = false →
      P st (t.others pool) inbox rest (ctrlLoopFrom st (t.others pool) inbox rest) →
      P st pool inbox (t :: rest) (ctrlLoopFrom st (t.others pool) inbox rest))
    (hfault : ∀ st pool inbox t rest, st ≠ CLIENT_DISCONNECTED → t.shutdown = false →
      t.readable = true → (handleClientCmd (t.others pool) inbox t.world).retval = none →
      P st pool inbox (t :: rest)
        { finish := Finish.faulted, connection_status := st
          pool := (handleClientCmd (t.others pool) inbox t.world).pool
          inbox := (handleClientCmd (t.others pool) inbox t.world).inbox
          trace := Event.dispatch :: (handleClientCmd (t.others pool) inbox t.world).trace })
    (hstep : ∀ st pool inbox t rest status, st ≠ CLIENT_DISCONNECTED → t.shutdown = false →
      t.readable = true →
      (handleClientCmd (t.others pool) inbox t.world).retval = some status →
      P status (handleClientCmd (t.others pool) inbox t.world).pool
        (handleClientCmd (t.others pool) inbox t.world).inbox rest
        (ctrlLoopFrom status (handleClientCmd (t.others pool) inbox t.world).pool
          (handleClientCmd (t.others pool) inbox t.world).inbox rest) →
      P st pool inbox (t :: rest)
        { ctrlLoopFrom status (handleClientCmd (t.others pool) inbox t.world).pool
            (handleClientCmd (t.others pool) inbox t.world).inbox rest with
          trace := Event.dispatch :: (handleClientCmd (t.others pool) inbox t.world).trace
            ++ (ctrlLoopFrom status (handleClientCmd (t.others pool) inbox t.world).pool
                  (handleClientCmd (t.others pool) inbox t.world).inbox rest).trace })
    (ticks : List Tick) (st : Int) (pool : Pool) (inbox : Inbox) :
    P st pool inbox ticks (ctrlLoopFrom st pool inbox ticks) := by
  induction ticks generalizing st pool inbox with
  | nil => exact hnil st pool inbox
  | cons t rest ih =>
      by_cases h : st ≠ CLIENT_DISCONNECTED ∧ t.shutdown = false
      · by_cases hr : t.readable = true
        · cases hret : (handleClientCmd (t.others pool) inbox t.world).retval with
          | none =>
              rw [ctrlLoopFrom_fault st pool inbox t rest h hr hret]
              exact hfault st pool inbox t rest h.1 h.2 hr hret
          | some status =>
              rw [ctrlLoopFrom_step st pool inbox t rest status h hr hret]
              exact hstep st pool inbox t rest status h.1 h.2 hr hret (ih _ _ _)
        · have hr2 : t.readable = false := by simpa using hr
          rw [ctrlLoopFrom_idle st pool inbox t rest h hr2]
          exact hidle st pool inbox t rest h.1 h.2 hr2 (ih _ _ _)
      · rw [ctrlLoopFrom_exit st pool inbox t rest h]
        exact hexit st pool inbox t rest h

/-- Without a fault and without other threads, the control loop leaves the lock state of the
pool as it found it. -/
theorem ctrlLoopFrom_locks (ticks : List Tick) (st : Int) (pool : Pool) (inbox : Inbox) :
    (∀ t ∈ ticks, t.others = id) →
      (ctrlLoopFrom st pool inbox ticks).finish ≠ Finish.faulted →
      (ctrlLoopFrom st pool inbox ticks).pool.io_mutexes = pool.io_mutexes := by
  refine ctrlLoopFrom_cases
    (fun st pool inbox ticks r => (∀ t ∈ ticks, t.others = id) →
      r.finish ≠ Finish.faulted → r.pool.io_mutexes = pool.io_mutexes)
    ?_ ?_ ?_ ?_ ?_ ticks st pool inbox
  · intro st pool inbox _ _
    rw [ctrlLoopFrom]; split <;> rfl
  · intro st pool inbox t rest _ _ _; rfl
  · intro st pool inbox t rest _ _ _ ih hid hf
    have hself : t.others = id := hid t (List.mem_cons_self t rest)
    have := ih (fun u hu => hid u (List.mem_cons_of_mem t hu)) hf
    rw [this, hself]; rfl
  · intro st pool inbox t rest _ _ _ _ _ hf
    exact absurd rfl hf
  · intro st pool inbox t rest status _ _ _ hret ih hid hf
    have hself : t.others = id := hid t (List.mem_cons_self t rest)
    have h1 := ih (fun u hu => hid u (List.mem_cons_of_mem t hu)) hf
    have h2 := handleClientCmd_locks (t.others pool) inbox t.world status hret
    show (ctrlLoopFrom status _ _ rest).pool.io_mutexes = pool.io_mutexes
    rw [h1, h2, hself]; rfl

/-- When the files of the working directory can be opened at every command, the control loop
does not fault. -/
theorem ctrlLoopFrom_no_fault (ticks : List Tick) (st : Int) (pool : Pool) (inbox : Inbox) :
    (∀ t ∈ ticks, t.world.opens) →
      (ctrlLoopFrom st pool inbox ticks).finish ≠ Finish.faulted := by
  refine ctrlLoopFrom_cases
    (fun _ _ _ ticks r => (∀ t ∈ ticks, t.world.opens) → r.finish ≠ Finish.faulted)
    ?_ ?_ ?_ ?_ ?_ ticks st pool inbox
  · intro st pool inbox _
    rw [ctrlLoopFrom]; split <;> simp
  · intro st pool inbox t rest _ _; simp
  · intro st pool inbox t rest _ _ _ ih hw
    exact ih (fun u hu => hw u (List.mem_cons_of_mem t hu))
  · intro st pool inbox t rest _ _ _ hret hw
    obtain ⟨rv, hrv⟩ := handleClientCmd_returns (t.others pool) inbox t.world
      (hw t (List.mem_cons_self t rest))
    rw [hret] at hrv; cases hrv
  · intro st pool inbox t rest status _ _ _ _ ih hw
    exact ih (fun u hu => hw u (List.mem_cons_of_mem t hu))

/-- Where the kill message stands in the trace of the control loop. -/
theorem ctrlLoopFrom_kill (ticks : List Tick) (st : Int) (pool : Pool) (inbox : Inbox) :
    ((ctrlLoopFrom st pool inbox ticks).finish = Finish.done →
        (ctrlLoopFrom st pool inbox ticks).connection_status ≠ CLIENT_DISCONNECTED →
        (∃ t ∈ ticks, t.shutdown = true)
          ∧ ∃ pre, (ctrlLoopFrom st pool inbox ticks).trace
                = pre ++ [Event.send Fd.cmd SERVER_KILL_MESSAGE]
              ∧ ∀ e ∈ pre, e ≠ Event.send Fd.cmd SERVER_KILL_MESSAGE)
      ∧ ((ctrlLoopFrom st pool inbox ticks).finish = Finish.done →
          (ctrlLoopFrom st pool inbox ticks).connection_status = CLIENT_DISCONNECTED →
          ∀ e ∈ (ctrlLoopFrom st pool inbox ticks).trace,
            e ≠ Event.send Fd.cmd SERVER_KILL_MESSAGE) := by
  refine ctrlLoopFrom_cases
    (fun _ _ _ ticks r =>
      (r.finish = Finish.done → r.connection_status ≠ CLIENT_DISCONNECTED →
        (∃ t ∈ ticks, t.shutdown = true)
          ∧ ∃ pre, r.trace = pre ++ [Event.send Fd.cmd SERVER_KILL_MESSAGE]
              ∧ ∀ e ∈ pre, e ≠ Event.send Fd.cmd SERVER_KILL_MESSAGE)
      ∧ (r.finish = Finish.done → r.connection_status = CLIENT_DISCONNECTED →
          ∀ e ∈ r.trace, e ≠ Event.send Fd.cmd SERVER_KILL_MESSAGE))
    ?_ ?_ ?_ ?_ ?_ ticks st pool inbox
  · intro st pool inbox
    rw [ctrlLoopFrom]
    by_cases h : st ≠ CLIENT_DISCONNECTED
    · rw [if_pos h]
      exact ⟨fun hd => (by cases hd), fun hd => (by cases hd)⟩
    · rw [if_neg h]
      exact ⟨fun _ hs => absurd hs h, fun _ _ e he => by cases he⟩
  · intro st pool inbox t rest h
    constructor
    · intro _ hs
      have hs2 : st ≠ CLIENT_DISCONNECTED := hs
      have hsd : t.shutdown = true := by
        by_contra hne
        exact h ⟨hs2, by simpa using hne⟩
      refine ⟨⟨t, List.mem_cons_self t rest, hsd⟩, [], ?_, fun e he => by cases he⟩
      simp only [if_pos hs2]
      rfl
    · intro _ hs e he
      have hs2 : st = CLIENT_DISCONNECTED := hs
      simp only [hs2, ne_eq, not_true_eq_false, if_false] at he
      cases he
  · intro st pool inbox t rest _ _ _ ih
    refine ⟨fun hd hs => ?_, ih.2⟩
    obtain ⟨⟨u, hu, hus⟩, hpre⟩ := ih.1 hd hs
    exact ⟨⟨u, List.mem_cons_of_mem t hu, hus⟩, hpre⟩
  · intro st pool inbox t rest _ _ _ _
    exact ⟨fun hd => (by cases hd), fun hd => (by cases hd)⟩
  · intro st pool inbox t rest status _ _ _ _ ih
    have hcmd := handleClientCmd_inCommand (t.others pool) inbox t.world
    constructor
    · intro hd hs
      obtain ⟨⟨u, hu, hus⟩, pre, hpre, hno⟩ := ih.1 hd hs
      refine ⟨⟨u, List.mem_cons_of_mem t hu, hus⟩,
        Event.dispatch :: (handleClientCmd (t.others pool) inbox t.world).trace ++ pre, ?_, ?_⟩
      · show Event.dispatch :: (handleClientCmd (t.others pool) inbox t.world).trace ++ _ = _
        rw [hpre]; simp
      · intro e he
        simp only [List.cons_append, List.mem_cons, List.mem_append] at he
        rcases he with rfl | he | he
        · simp
        · exact (hcmd e he).2
        · exact hno e he
    · intro hd hs e he
      have he2 : e ∈ Event.dispatch :: (handleClientCmd (t.others pool) inbox t.world).trace
          ++ (ctrlLoopFrom status (handleClientCmd (t.others pool) inbox t.world).pool
                (handleClientCmd (t.others pool) inbox t.world).inbox rest).trace := he
      simp only [List.cons_append, List.mem_cons, List.mem_append] at he2
      rcases he2 with rfl | he2 | he2
      · simp
      · exact (hcmd e he2).2
      · exact ih.2 hd hs e he2

@[simp] theorem dispatches_dispatch (rest : List Event) :
    dispatches (Event.dispatch :: rest) = dispatches rest + 1 := rfl

theorem dispatches_append (a b : List Event) :
    dispatches (a ++ b) = dispatches a + dispatches b := by
  induction a with
  | nil => simp [dispatches]
  | cons e t ih =>
      cases e <;> simp [dispatches, ih]
      omega

/-- A tick on which the shutdown flag is read as set ends the run: what the schedule holds
after it has no effect, and no command is dispatched on or after it. -/
theorem ctrlLoopFrom_shutdown (before : List Tick) (t : Tick) (after : List Tick)
    (ht : t.shutdown = true) (st : Int) (pool : Pool) (inbox : Inbox) :
    ctrlLoopFrom st pool inbox (before ++ t :: after)
        = ctrlLoopFrom st pool inbox (before ++ [t])
      ∧ dispatches (ctrlLoopFrom st pool inbox (before ++ [t])).trace
        = dispatches (ctrlLoopFrom st pool inbox before).trace := by
  have hstop : ∀ st, ¬ (st ≠ CLIENT_DISCONNECTED ∧ t.shutdown = false) := by
    intro st h; rw [ht] at h; cases h.2
  induction before generalizing st pool inbox with
  | nil =>
      simp only [List.nil_append]
      rw [ctrlLoopFrom_exit st pool inbox t after (hstop st),
        ctrlLoopFrom_exit st pool inbox t [] (hstop st)]
      refine ⟨rfl, ?_⟩
      rw [ctrlLoopFrom]
      by_cases h : st ≠ CLIENT_DISCONNECTED
      · simp [h, sendKillToClient, dispatches]
      · simp [h, dispatches]
  | cons u bs ih =>
      simp only [List.cons_append]
      by_cases h : st ≠ CLIENT_DISCONNECTED ∧ u.shutdown = false
      · by_cases hr : u.readable = true
        · cases hret : (handleClientCmd (u.others pool) inbox u.world).retval with
          | none =>
              rw [ctrlLoopFrom_fault st pool inbox u _ h hr hret,
                ctrlLoopFrom_fault st pool inbox u _ h hr hret,
                ctrlLoopFrom_fault st pool inbox u _ h hr hret]
              exact ⟨rfl, rfl⟩
          | some status =>
              rw [ctrlLoopFrom_step st pool inbox u _ status h hr hret,
                ctrlLoopFrom_step st pool inbox u _ status h hr hret,
                ctrlLoopFrom_step st pool inbox u _ status h hr hret]
              obtain ⟨h1, h2⟩ := ih status (handleClientCmd (u.others pool) inbox u.world).pool
                (handleClientCmd (u.others pool) inbox u.world).inbox
              rw [h1]
              refine ⟨rfl, ?_⟩
              show dispatches (Event.dispatch :: _ ++ _) = dispatches (Event.dispatch :: _ ++ _)
              rw [List.cons_append, List.cons_append, dispatches_dispatch, dispatches_dispatch,
                dispatches_append, dispatches_append, h2]
        · have hr2 : u.readable = false := by simpa using hr
          rw [ctrlLoopFrom_idle st pool inbox u _ h hr2,
            ctrlLoopFrom_idle st pool inbox u _ h hr2,
            ctrlLoopFrom_idle st pool inbox u _ h hr2]
          exact ih st (u.others pool) inbox
      · rw [ctrlLoopFrom_exit st pool inbox u _ h, ctrlLoopFrom_exit st pool inbox u _ h,
          ctrlLoopFrom_exit st pool inbox u _ h]
        exact ⟨rfl, rfl⟩

theorem freeSlots_congr (p q : Pool) (h : p.io_mutexes = q.io_mutexes) :
    freeSlots p = freeSlots q := by
  simp only [freeSlots, h]

theorem freeSlots_initialPool (in_buffers out_buffers : Nat → List Nat) :
    freeSlots (initialPool in_buffers out_buffers) = NUM_BUFFERS := by
  simp [freeSlots, initialPool, NUM_BUFFERS]

/-- A schedule that ends with a tick on which the shutdown flag is read as set does not
leave the loop running. -/
theorem ctrlLoopFrom_stops (before : List Tick) (t : Tick) (ht : t.shutdown = true)
    (st : Int) (pool : Pool) (inbox : Inbox) :
    (ctrlLoopFrom st pool inbox (before ++ [t])).finish ≠ Finish.running := by
  induction before generalizing st pool inbox with
  | nil =>
      have hstop : ¬ (st ≠ CLIENT_DISCONNECTED ∧ t.shutdown = false) := by
        intro h; rw [ht] at h; cases h.2
      rw [List.nil_append, ctrlLoopFrom_exit st pool inbox t [] hstop]
      simp
  | cons u bs ih =>
      rw [List.cons_append]
      by_cases h : st ≠ CLIENT_DISCONNECTED ∧ u.shutdown = false
      · by_cases hr : u.readable = true
        · cases hret : (handleClientCmd (u.others pool) inbox u.world).retval with
          | none =>
              rw [ctrlLoopFrom_fault st pool inbox u _ h hr hret]
              simp
          | some status =>
              rw [ctrlLoopFrom_step st pool inbox u _ status h hr hret]
              exact ih status _ _
        · have hr2 : u.readable = false := by simpa using hr
          rw [ctrlLoopFrom_idle st pool inbox u _ h hr2]
          exact ih st _ _
      · rw [ctrlLoopFrom_exit st pool inbox u _ h]
        simp

/-! ## Lemmas on the handshake -/

/-- The function `getClientDataSocketInfo` returns 0 after the four calls of the handshake,
none of which failed, or -1 after a trace without any dispatch. -/
theorem getClientDataSocketInfo_cases (pool : Pool) (inbox : Inbox) (hs : Handshake) :
    ((getClientDataSocketInfo pool inbox hs).retval = 0
        ∧ (getClientDataSocketInfo pool inbox hs).trace = handshakeTrace
        ∧ hs.sendAddr = true ∧ hs.sendPort = true
        ∧ (recv inbox (zeroed IN_BUFFER_SIZE) IN_BUFFER_SIZE).1 ≠ -1
        ∧ (recv (recv inbox (zeroed IN_BUFFER_SIZE) IN_BUFFER_SIZE).2.2
            (zeroed IN_BUFFER_SIZE) IN_BUFFER_SIZE).1 ≠ -1)
      ∨ ((getClientDataSocketInfo pool inbox hs).retval = -1
          ∧ Event.dispatch ∉ (getClientDataSocketInfo pool inbox hs).trace) := by
  unfold getClientDataSocketInfo
  rcases acquireFreeIOMutex_cases pool with ⟨i, hi, hfree, hlow, e⟩ | ⟨hall, e⟩
  · have hne : ((i : Int) = -1) = False := by
      apply eq_false; omega
    rw [e]
    simp only [ne_eq, hne, not_false_eq_true, if_true, Int.toNat_ofNat, Function.update_same]
    by_cases h1 : (recv inbox (zeroed IN_BUFFER_SIZE) IN_BUFFER_SIZE).1 = -1
    · simp [h1]
    · by_cases h2 : hs.sendAddr = true
      · by_cases h3 : (recv (recv inbox (zeroed IN_BUFFER_SIZE) IN_BUFFER_SIZE).2.2
            (zeroed IN_BUFFER_SIZE) IN_BUFFER_SIZE).1 = -1
        · simp [h1, h2, h3]
        · by_cases h4 : hs.sendPort = true
          · simp [h1, h2, h3, h4, handshakeTrace]
          · simp [h1, h2, h3, h4]
      · simp [h1, h2]
  · rw [e]
    simp

theorem smallWorld_opens : smallWorld.opens := by
  refine ⟨[[97], [98]], rfl, fun name _ => ?_⟩
  by_cases h : name = [97]
  · exact ⟨[97], by simp [smallWorld, h]⟩
  · exact ⟨[104, 105], by simp [smallWorld, h]⟩

/-! ## Lemmas on the command line -/

theorem digitsValue_ge (l : List Nat) (acc : Nat) : acc ≤ digitsValue acc l := by
  induction l generalizing acc with
  | nil => exact le_refl _
  | cons c rest ih =>
      rw [digitsValue]
      split
      · exact le_trans (by omega) (ih (acc * 10 + (c - 48)))
      · exact le_refl _

theorem toInt32_of_fits (v : Int) (h0 : 0 ≤ v) (h1 : v < 2147483648) : toInt32 v = v := by
  unfold toInt32
  omega

/-- On a numeric string that does not start with `'0'` and whose value fits an `int`, `atoi`
yields that value, which is not zero. -/
theorem atoi_numeric (s : List Nat) (hnum : isNumeric s) (hhead : s.head? ≠ some 48)
    (hfit : digitsValue 0 s < 2147483648) :
    atoi s = (digitsValue 0 s : Int) ∧ atoi s ≠ 0 := by
  obtain ⟨hne, hdig⟩ := hnum
  cases s with
  | nil => exact absurd rfl hne
  | cons c rest =>
      have hc : isdigit c = true := hdig c (List.mem_cons_self c rest)
      have hc48 : c ≠ 48 := by
        intro h; apply hhead; rw [h]; rfl
      have hrange : 49 ≤ c ∧ c ≤ 57 := by
        simp only [isdigit, Bool.and_eq_true, decide_eq_true_eq] at hc
        omega
      have hspace : isspace c = false := by
        simp only [isspace, Bool.or_eq_false_iff, beq_eq_false_iff_ne, Bool.and_eq_false_iff,
          decide_eq_false_iff_not]
        omega
      have hdrop : (c :: rest).dropWhile isspace = c :: rest := by
        simp [List.dropWhile_cons, hspace]
      have hpos : 1 ≤ digitsValue 0 (c :: rest) := by
        rw [digitsValue, if_pos hc]
        exact le_trans (by omega) (digitsValue_ge rest (0 * 10 + (c - 48)))
      have hst : strtol (c :: rest) = (digitsValue 0 (c :: rest) : Int) := by
        unfold strtol
        rw [hdrop]
        split
        · next digits heq =>
            injection heq with h _; omega
        · next digits heq =>
            injection heq with h _; omega
        · apply min_eq_right
          unfold LONG_MAX
          omega
      have hval : atoi (c :: rest) = (digitsValue 0 (c :: rest) : Int) := by
        rw [atoi, hst]
        exact toInt32_of_fits _ (by omega) (by omega)
      refine ⟨hval, ?_⟩
      rw [hval]
      omega

/-- When `getValidPort` returns, and what. -/
theorem getValidPort_ok_iff (argv : List (List Nat)) (s : List Nat) :
    getValidPort argv = Except.ok s
      ↔ 2 ≤ argv.length ∧ s = argv.getD 1 [] ∧ (s.head? = some 48 ∨ atoi s ≠ 0) := by
  unfold getValidPort
  by_cases hlen : argv.length < 2
  · rw [if_pos hlen]
    constructor
    · intro h; cases h
    · intro h; omega
  · rw [if_neg hlen]
    by_cases hport : (argv.getD 1 []).head? = some 48 ∨ atoi (argv.getD 1 []) ≠ 0
    · simp only [hport, if_true]
      constructor
      · intro h
        injection h with h
        subst h
        exact ⟨by omega, rfl, hport⟩
      · intro h
        rw [h.2.1]
    · simp only [hport, if_false]
      constructor
      · intro h; cases h
      · intro h
        obtain ⟨_, hs, hp⟩ := h
        subst hs
        exact absurd hp hport

/-- The function `getValidPort` returns `argv[1]` or ends the process with status 1. -/
theorem getValidPort_cases (argv : List (List Nat)) :
    getValidPort argv = Except.ok (argv.getD 1 []) ∨ getValidPort argv = Except.error 1 := by
  unfold getValidPort
  by_cases hlen : argv.length < 2
  · rw [if_pos hlen]; exact Or.inr rfl
  · rw [if_neg hlen]
    by_cases hport : (argv.getD 1 []).head? = some 48 ∨ atoi (argv.getD 1 []) ≠ 0
    · simp only [hport, if_true]; simp
    · simp only [hport, if_false]; simp

/-! ## Lemmas on the handlers run by one dispatch -/

/-- A GET command with an open data connection: `handleGetCmd` runs and then, the call being
outside the conditional, `handleListCmd`. -/
theorem handleClientCmd_get_then_list (pool : Pool) (inbox : Inbox) (w : World)
    (hslot : ∃ i, i < NUM_BUFFERS ∧ pool.io_mutexes i = false)
    (hne : cstr (receivedBuffer inbox) ≠ [])
    (hget : strncmp (receivedBuffer inbox) GET_MESSAGE 2 = true)
    (hconn : (establishDataConnection w).1 = true)
    (hret : (handleGetCmd w (receivedBuffer inbox) (zeroed OUT_BUFFER_SIZE)).returned = true) :
    (handleClientCmd pool inbox w).trace
        = Event.recv Fd.cmd IN_BUFFER_SIZE :: Event.console Console.commandReceived
            :: (establishDataConnection w).2
            ++ (handleGetCmd w (receivedBuffer inbox) (zeroed OUT_BUFFER_SIZE)).trace
            ++ handleListCmd w ++ [Event.close Fd.data]
      ∧ (handleClientCmd pool inbox w).retval = some 0 := by
  obtain ⟨i, hi, hfree, hlow⟩ := exists_lowest_free pool hslot
  have hs : strcmp (receivedBuffer inbox) [0] = false := by
    rw [Bool.eq_false_iff, ne_eq, strcmp_empty]; exact hne
  have hv : validCommand (receivedBuffer inbox) = true := by
    simp [validCommand, hget]
  rw [handleClientCmd_free pool inbox w i hi hfree hlow]
  simp [hs, hv, hget, hconn, hret]

/-- A LIST command with an open data connection: `handleListCmd` runs, `handleGetCmd` does
not. -/
theorem handleClientCmd_list_only (pool : Pool) (inbox : Inbox) (w : World)
    (hslot : ∃ i, i < NUM_BUFFERS ∧ pool.io_mutexes i = false)
    (hne : cstr (receivedBuffer inbox) ≠ [])
    (hlist : strncmp (receivedBuffer inbox) LIST_MESSAGE 2 = true)
    (hget : strncmp (receivedBuffer inbox) GET_MESSAGE 2 = false)
    (hconn : (establishDataConnection w).1 = true) :
    (handleClientCmd pool inbox w).trace
        = Event.recv Fd.cmd IN_BUFFER_SIZE :: Event.console Console.commandReceived
            :: (establishDataConnection w).2
            ++ [Event.console Console.handlingList]
            ++ handleListCmd w ++ [Event.close Fd.data]
      ∧ (handleClientCmd pool inbox w).retval = some 0 := by
  obtain ⟨i, hi, hfree, hlow⟩ := exists_lowest_free pool hslot
  have hs : strcmp (receivedBuffer inbox) [0] = false := by
    rw [Bool.eq_false_iff, ne_eq, strcmp_empty]; exact hne
  have hv : validCommand (receivedBuffer inbox) = true := by
    simp [validCommand, hlist]
  rw [handleClientCmd_free pool inbox w i hi hfree hlow]
  simp [hs, hv, hget, hlist, hconn]

/-- The lock state `getClientDataSocketInfo` leaves when slot `i` is the lowest free slot:
restored after a handshake that succeeds, slot `i` still locked after one that fails. -/
theorem getClientDataSocketInfo_locks (pool : Pool) (inbox : Inbox) (hs : Handshake) (i : Nat)
    (hi : i < NUM_BUFFERS) (hfree : pool.io_mutexes i = false)
    (hlow : ∀ j, j < i → pool.io_mutexes j = true) :
    ((getClientDataSocketInfo pool inbox hs).retval = 0
        ∧ (getClientDataSocketInfo pool inbox hs).pool.io_mutexes = pool.io_mutexes)
      ∨ ((getClientDataSocketInfo pool inbox hs).retval = -1
          ∧ (getClientDataSocketInfo pool inbox hs).pool.io_mutexes
              = Function.update pool.io_mutexes i true) := by
  have hne : ((i : Int) = -1) = False := by
    apply eq_false; omega
  have hback := unlock_lockedAt pool i hfree
  unfold getClientDataSocketInfo
  rw [acquireFreeIOMutex_free pool i hi hfree hlow]
  simp only [ne_eq, hne, not_false_eq_true, if_true, Int.toNat_ofNat, Function.update_same]
  by_cases h1 : (recv inbox (zeroed IN_BUFFER_SIZE) IN_BUFFER_SIZE).1 = -1
  · simp [h1, setInBuffer]
  · by_cases h2 : hs.sendAddr = true
    · by_cases h3 : (recv (recv inbox (zeroed IN_BUFFER_SIZE) IN_BUFFER_SIZE).2.2
          (zeroed IN_BUFFER_SIZE) IN_BUFFER_SIZE).1 = -1
      · simp [h1, h2, h3, setInBuffer]
      · by_cases h4 : hs.sendPort = true
        · simp [h1, h2, h3, h4, setInBuffer, unlock, hback]
        · simp [h1, h2, h3, h4, setInBuffer]
    · simp [h1, h2, setInBuffer]

/-- What `handleGetCmd` sends on the data connection for `-g a` in the small directory. -/
theorem handleGetCmd_getA_data :
    sentOn Fd.data (handleGetCmd smallWorld getA (zeroed OUT_BUFFER_SIZE)).trace
        = [97] ++ List.replicate 4095 0 ++ END_DATA_MESSAGE
      ∧ (handleGetCmd smallWorld getA (zeroed OUT_BUFFER_SIZE)).returned = true := by
  have hfound := handleGetCmd_found smallWorld getA (zeroed OUT_BUFFER_SIZE) [[97], [98]] [97]
    rfl (by decide) (by decide)
  obtain ⟨h1, _⟩ := sendFile_sent smallWorld.past [97] (by decide) (Or.inl (by decide))
  obtain ⟨e1, _, _⟩ := sendDataDisconnectToClient_data
  have hk : OUT_BUFFER_SIZE - [97].length % OUT_BUFFER_SIZE = 4095 := by decide
  rw [hk] at h1
  rw [hfound]
  refine ⟨?_, rfl⟩
  simp only []
  rw [List.cons_append, sentOn_console, sentOn_append, h1, e1]

/-- What `handleListCmd` sends on the data connection in the small directory. -/
theorem handleListCmd_small_data :
    sentOn Fd.data (handleListCmd smallWorld) = [97, 10, 98, 10] ++ END_DATA_MESSAGE := by
  simp [handleListCmd, smallWorld, sendEntries]

/-! ## Claims -/

/-- C1, amended.  For every control message that is not empty, does not begin with a zero
byte, and whose first two bytes are neither `-g` nor `-l`, `handleClientCmd` called with a
free pool slot performs one receive and one send, the bytes `@@ERROR_INVALID_COMMAND` on the
control connection; it does not call `establishDataConnection`, sends nothing on the data
connection, and returns `CLIENT_INVALID_CONNECTED` (1). -/
theorem handleClientCmd_invalid_command (pool : Pool) (m : List Nat) (rest : Inbox) (w : World)
    (hslot : ∃ i, i < NUM_BUFFERS ∧ pool.io_mutexes i = false)
    (hne : m ≠ []) (hnul : m.head? ≠ some 0)
    (hget : m.take 2 ≠ GET_MESSAGE) (hlist : m.take 2 ≠ LIST_MESSAGE) :
    (handleClientCmd pool (some m :: rest) w).trace
        = [Event.recv Fd.cmd IN_BUFFER_SIZE, Event.console Console.invalidCommand,
           Event.send Fd.cmd ERROR_INVALID_COMMAND]
      ∧ sentOn Fd.cmd (handleClientCmd pool (some m :: rest) w).trace = ERROR_INVALID_COMMAND
      ∧ Event.establish ∉ (handleClientCmd pool (some m :: rest) w).trace
      ∧ sentOn Fd.data (handleClientCmd pool (some m :: rest) w).trace = []
      ∧ (handleClientCmd pool (some m :: rest) w).retval = some CLIENT_INVALID_CONNECTED := by
  have hbuf : cstr (receivedBuffer (some m :: rest)) ≠ [] := by
    rw [ne_eq, receivedBuffer_empty_iff]; exact not_or.mpr ⟨hne, hnul⟩
  have hinv : validCommand (receivedBuffer (some m :: rest)) = false := by
    rw [Bool.eq_false_iff, ne_eq, validCommand_received]; exact not_or.mpr ⟨hget, hlist⟩
  obtain ⟨hret, htrace⟩ := handleClientCmd_invalid_buffer pool (some m :: rest) w hslot hbuf hinv
  rw [htrace, hret]
  refine ⟨rfl, ?_, ?_, ?_, rfl⟩
  · simp [sentOn]
  · simp
  · simp [sentOn]

/-- C1, witness: the message `-x` on a fresh pool. -/
theorem handleClientCmd_invalid_command_witness :
    sentOn Fd.cmd (handleClientCmd freshPool [some [45, 120]] smallWorld).trace
        = ERROR_INVALID_COMMAND
      ∧ (handleClientCmd freshPool [some [45, 120]] smallWorld).retval = some 1 :=
  have h := handleClientCmd_invalid_command freshPool [45, 120] [] smallWorld
    ⟨0, by decide, rfl⟩ (by decide) (by decide) (by decide) (by decide)
  ⟨h.2.1, h.2.2.2.2⟩

/-- C1, counterexample.  The one-byte message consisting of a zero byte is not empty and its
first two bytes are neither `-g` nor `-l`, yet `handleClientCmd` on a fresh pool sends nothing
on the control connection and returns `CLIENT_DISCONNECTED` (-1), not 1. -/
theorem handleClientCmd_zero_byte_message :
    ([0] : List Nat) ≠ [] ∧ List.take 2 [0] ≠ GET_MESSAGE ∧ List.take 2 [0] ≠ LIST_MESSAGE
      ∧ (∃ i, i < NUM_BUFFERS ∧ freshPool.io_mutexes i = false)
      ∧ sentOn Fd.cmd (handleClientCmd freshPool [some [0]] smallWorld).trace = []
      ∧ (handleClientCmd freshPool [some [0]] smallWorld).retval = some CLIENT_DISCONNECTED
      ∧ (handleClientCmd freshPool [some [0]] smallWorld).retval
          ≠ some CLIENT_INVALID_CONNECTED := by
  have hslot : ∃ i, i < NUM_BUFFERS ∧ freshPool.io_mutexes i = false := ⟨0, by decide, rfl⟩
  have hnil : cstr (receivedBuffer [some [0]]) = [] :=
    (receivedBuffer_empty_iff [0] []).mpr (Or.inr rfl)
  obtain ⟨hret, htrace⟩ := handleClientCmd_empty_buffer freshPool [some [0]] smallWorld hslot hnil
  rw [hret, htrace]
  refine ⟨by decide, by decide, by decide, hslot, ?_, rfl, by decide⟩
  simp [sentOn]

/-- C2, amended.  For every existing file in the working directory whose `S` bytes are all
non-zero (and, when `S ≥ 4096`, with a zero byte right after the output buffer in memory),
`handleGetCmd` returns and sends on the data connection the `S` bytes of the file in order,
then `4096 - S mod 4096` zero bytes, in `S / 4096 + 1` sends of exactly 4096 bytes each (the
whole output buffer, however many bytes were read), followed by exactly `@@END_DATA`; it
sends nothing on the control connection. -/
theorem handleGetCmd_existing_file (w : World) (arg out : List Nat)
    (entries : List (List Nat)) (content : List Nat)
    (hdir : w.opendir = some entries) (hin : cstr (arg.drop 3) ∈ entries)
    (hopen : w.fopen (cstr (arg.drop 3)) = some content)
    (hnz : ∀ c ∈ content, c ≠ 0)
    (hpast : content.length < OUT_BUFFER_SIZE ∨ w.past = 0) :
    (handleGetCmd w arg out).returned = true
      ∧ sentOn Fd.data (handleGetCmd w arg out).trace
          = content ++ List.replicate (OUT_BUFFER_SIZE - content.length % OUT_BUFFER_SIZE) 0
              ++ END_DATA_MESSAGE
      ∧ sendSizes Fd.data (handleGetCmd w arg out).trace
          = List.replicate (content.length / OUT_BUFFER_SIZE + 1) OUT_BUFFER_SIZE
              ++ [END_DATA_MESSAGE.length]
      ∧ sentOn Fd.cmd (handleGetCmd w arg out).trace = [] := by
  obtain ⟨h1, h2⟩ := sendFile_sent w.past content hnz hpast
  obtain ⟨e1, e2, e3⟩ := sendDataDisconnectToClient_data
  rw [handleGetCmd_found w arg out entries content hdir hin hopen]
  refine ⟨rfl, ?_, ?_, ?_⟩
  · rw [List.cons_append, sentOn_console, sentOn_append, h1, e1]
  · rw [List.cons_append, sendSizes_console, sendSizes_append, h2, e3]
  · rw [List.cons_append, sentOn_console, sentOn_append, sendFile_cmd, e2]
    rfl

/-- C2, witness: `-g a` where `a` is a file holding the one byte `a`. -/
theorem handleGetCmd_existing_file_witness :
    sentOn Fd.data (handleGetCmd smallWorld getA (zeroed OUT_BUFFER_SIZE)).trace
        = [97] ++ List.replicate 4095 0 ++ END_DATA_MESSAGE
      ∧ sendSizes Fd.data (handleGetCmd smallWorld getA (zeroed OUT_BUFFER_SIZE)).trace
        = [4096, 10] :=
  have h := handleGetCmd_existing_file smallWorld getA (zeroed OUT_BUFFER_SIZE)
    [[97], [98]] [97] rfl (by decide) (by decide) (by decide) (Or.inl (by decide))
  ⟨h.2.1, h.2.2.1⟩

/-- C2, counterexample.  For the file `a` of one byte, `handleGetCmd` sends 4096 bytes in one
chunk, the byte read and 4095 bytes of padding, before `@@END_DATA`: not the byte-exact
stream.  For a file of 4097 bytes that starts with a zero byte it sends a single chunk, so
fewer bytes than the file has. -/
theorem handleGetCmd_pads_and_truncates :
    sentOn Fd.data (handleGetCmd smallWorld getA (zeroed OUT_BUFFER_SIZE)).trace
        = [97] ++ List.replicate 4095 0 ++ END_DATA_MESSAGE
      ∧ sendSizes Fd.data (handleGetCmd smallWorld getA (zeroed OUT_BUFFER_SIZE)).trace
        = [4096, 10]
      ∧ sentOn Fd.data (handleGetCmd smallWorld getA (zeroed OUT_BUFFER_SIZE)).trace
        ≠ [97] ++ END_DATA_MESSAGE
      ∧ zeroFirstFile.length = 4097
      ∧ (sentOn Fd.data (handleGetCmd zeroFirstWorld getA (zeroed OUT_BUFFER_SIZE)).trace).length
        = 4096 + END_DATA_MESSAGE.length := by
  have hfound := handleGetCmd_found smallWorld getA (zeroed OUT_BUFFER_SIZE) [[97], [98]] [97]
    rfl (by decide) (by decide)
  obtain ⟨h1, h2⟩ := sendFile_sent smallWorld.past [97] (by decide) (Or.inl (by decide))
  obtain ⟨e1, _, e3⟩ := sendDataDisconnectToClient_data
  have hk : OUT_BUFFER_SIZE - [97].length % OUT_BUFFER_SIZE = 4095 := by decide
  have hn : [97].length / OUT_BUFFER_SIZE + 1 = 1 := by decide
  rw [hk] at h1
  rw [hn] at h2
  have hdata : sentOn Fd.data (handleGetCmd smallWorld getA (zeroed OUT_BUFFER_SIZE)).trace
      = [97] ++ List.replicate 4095 0 ++ END_DATA_MESSAGE := by
    rw [hfound]
    simp only []
    rw [List.cons_append, sentOn_console, sentOn_append, h1, e1]
  have hzero := handleGetCmd_found zeroFirstWorld getA (zeroed OUT_BUFFER_SIZE) [[97]]
    zeroFirstFile rfl (by decide) rfl
  refine ⟨hdata, ?_, ?_, ?_, ?_⟩
  · rw [hfound]
    simp only []
    rw [List.cons_append, sendSizes_console, sendSizes_append, h2, e3]
    rfl
  · rw [hdata]
    intro h
    have := congrArg List.length h
    simp only [List.length_append, List.length_replicate, List.length_cons, List.length_nil] at this
    omega
  · simp only [zeroFirstFile, List.length_cons, List.length_replicate]
  · rw [hzero, zeroFirstFile, sendFile_zero_first]
    simp only []
    rw [List.cons_append, sentOn_console, sentOn_append, e1]
    simp only [sentOn_send, if_true, sentOn_nil, List.append_nil, List.length_append,
      fread_length, OUT_BUFFER_SIZE]

/-- C3, amended.  For every GET whose filename argument equals no entry name of the working
directory, `handleGetCmd` returns and sends on the control connection `@@ERROR_BAD_FILENAME`
and then, in a second send, `@@END_DATA`; it sends exactly `@@END_DATA` on the data
connection, in one send, and so no file bytes on either connection. -/
theorem handleGetCmd_bad_filename (w : World) (arg out : List Nat) (entries : List (List Nat))
    (hdir : w.opendir = some entries) (hnames : ∀ d ∈ entries, ∀ c ∈ d, c ≠ 0)
    (hnot : cstr (arg.drop 3) ∉ entries) :
    (handleGetCmd w arg out).returned = true
      ∧ sentOn Fd.cmd (handleGetCmd w arg out).trace = ERROR_BAD_FILENAME ++ END_DATA_MESSAGE
      ∧ sendSizes Fd.cmd (handleGetCmd w arg out).trace
          = [ERROR_BAD_FILENAME.length, END_DATA_MESSAGE.length]
      ∧ sentOn Fd.data (handleGetCmd w arg out).trace = END_DATA_MESSAGE
      ∧ sendSizes Fd.data (handleGetCmd w arg out).trace = [END_DATA_MESSAGE.length] := by
  obtain ⟨htrace, hret⟩ := handleGetCmd_missing w arg out entries hdir hnames hnot
  rw [htrace, hret]
  simp

/-- C3, witness: `-g c` in a directory with the entries `a` and `b`. -/
theorem handleGetCmd_bad_filename_witness :
    sentOn Fd.cmd (handleGetCmd smallWorld getC (zeroed OUT_BUFFER_SIZE)).trace
        = ERROR_BAD_FILENAME ++ END_DATA_MESSAGE
      ∧ sentOn Fd.data (handleGetCmd smallWorld getC (zeroed OUT_BUFFER_SIZE)).trace
        = END_DATA_MESSAGE :=
  have h := handleGetCmd_bad_filename smallWorld getC (zeroed OUT_BUFFER_SIZE) [[97], [98]]
    rfl (by decide) (by decide)
  ⟨h.2.1, h.2.2.2.1⟩

/-- C3, counterexample.  For `-g c` in a directory with the entries `a` and `b`, what
`handleGetCmd` sends on the control connection is `@@ERROR_BAD_FILENAME@@END_DATA`, in two
sends: more than `@@ERROR_BAD_FILENAME`. -/
theorem handleGetCmd_end_data_on_control :
    cstr (getC.drop 3) ∉ [[97], [98]]
      ∧ sendSizes Fd.cmd (handleGetCmd smallWorld getC (zeroed OUT_BUFFER_SIZE)).trace
        = [20, 10]
      ∧ sentOn Fd.cmd (handleGetCmd smallWorld getC (zeroed OUT_BUFFER_SIZE)).trace
        = ERROR_BAD_FILENAME ++ END_DATA_MESSAGE
      ∧ sentOn Fd.cmd (handleGetCmd smallWorld getC (zeroed OUT_BUFFER_SIZE)).trace
        ≠ ERROR_BAD_FILENAME := by
  obtain ⟨htrace, _⟩ := handleGetCmd_missing smallWorld getC (zeroed OUT_BUFFER_SIZE)
    [[97], [98]] rfl (by decide) (by decide)
  rw [htrace]
  refine ⟨by decide, ?_, ?_, ?_⟩
  · simp [ERROR_BAD_FILENAME, END_DATA_MESSAGE]
  · simp
  · decide

/-- C4.  For every directory that `opendir` opens, with the entry names `n1 .. nk` in
`readdir` order, `handleListCmd` sends on the data connection exactly
`n1 "\n" n2 "\n" ... nk "\n"` followed by `@@END_DATA`, sends nothing on the control
connection, and its one receive, for the echoed sentinel, comes after all of that as the
last action. -/
theorem handleListCmd_stream (w : World) (entries : List (List Nat))
    (hdir : w.opendir = some entries) :
    sentOn Fd.data (handleListCmd w)
        = (entries.map (fun d_name => d_name ++ [10])).flatten ++ END_DATA_MESSAGE
      ∧ sentOn Fd.cmd (handleListCmd w) = []
      ∧ ∃ sends, handleListCmd w = sends ++ [Event.recv Fd.data END_DATA_MESSAGE.length]
          ∧ (∀ e ∈ sends, ∀ fd size, e ≠ Event.recv fd size)
          ∧ sentOn Fd.data sends = sentOn Fd.data (handleListCmd w) := by
  simp only [handleListCmd, hdir]
  refine ⟨?_, ?_, ?_⟩
  · rw [List.cons_append, sentOn_console, sentOn_append, sendEntries_data]
    simp
  · rw [List.cons_append, sentOn_console, sentOn_append, sendEntries_cmd]
    simp
  · refine ⟨Event.console Console.sendingDirectory :: sendEntries entries
      ++ [Event.send Fd.data END_DATA_MESSAGE], ?_, ?_, ?_⟩
    · simp
    · intro e he fd size
      simp only [List.cons_append, List.mem_cons, List.mem_append, List.mem_singleton,
        List.not_mem_nil, or_false] at he
      rcases he with rfl | he | rfl
      · simp
      · exact sendEntries_no_recv entries e he fd size
      · simp
    · simp [sentOn_append]

/-- C4, witness: the directory with the entries `a` and `b`. -/
theorem handleListCmd_stream_witness :
    sentOn Fd.data (handleListCmd smallWorld) = [97, 10, 98, 10] ++ END_DATA_MESSAGE
      ∧ sentOn Fd.cmd (handleListCmd smallWorld) = [] :=
  have h := handleListCmd_stream smallWorld [[97], [98]] rfl
  ⟨h.1, h.2.1⟩

/-- C5, amended.  With a free pool slot, for every result of the control-socket receive
`handleClientCmd` returns `CLIENT_DISCONNECTED` (-1) exactly when the input buffer holds the
empty string after the receive, which is the case when the receive returned zero bytes
(connection closed), failed, or delivered bytes that start with a zero byte.  For every
message that is not empty and does not start with a zero byte it returns 1 if the message
begins with neither `-g` nor `-l`; if it does begin with one of them it returns 0 whenever
the working directory and the files found in it can be opened, and in no case a status
other than 0. -/
theorem handleClientCmd_status (pool : Pool) (inbox : Inbox) (w : World)
    (hslot : ∃ i, i < NUM_BUFFERS ∧ pool.io_mutexes i = false) :
    ((handleClientCmd pool inbox w).retval = some CLIENT_DISCONNECTED
        ↔ cstr (receivedBuffer inbox) = [])
      ∧ (cstr (receivedBuffer inbox) = []
          ↔ inbox = [] ∨ (∃ rest, inbox = none :: rest)
              ∨ ∃ m rest, inbox = some m :: rest ∧ (m = [] ∨ m.head? = some 0))
      ∧ ∀ m rest, inbox = some m :: rest → m ≠ [] → m.head? ≠ some 0 →
          (¬ (m.take 2 = GET_MESSAGE ∨ m.take 2 = LIST_MESSAGE) →
              (handleClientCmd pool inbox w).retval = some CLIENT_INVALID_CONNECTED)
            ∧ (m.take 2 = GET_MESSAGE ∨ m.take 2 = LIST_MESSAGE →
                (w.opens → (handleClientCmd pool inbox w).retval = some CLIENT_VALID_CONNECTED)
                  ∧ ∀ rv, (handleClientCmd pool inbox w).retval = some rv
                      → rv = CLIENT_VALID_CONNECTED) := by
  refine ⟨?_, receivedBuffer_empty_cases inbox, ?_⟩
  · constructor
    · intro h
      by_contra hnil
      by_cases hv : validCommand (receivedBuffer inbox) = true
      · rcases handleClientCmd_valid_buffer_cases pool inbox w hslot hnil hv with h0 | h0
        · rw [h0] at h; simp [CLIENT_DISCONNECTED] at h
        · rw [h0] at h; cases h
      · rw [(handleClientCmd_invalid_buffer pool inbox w hslot hnil (by simpa using hv)).1] at h
        simp [CLIENT_DISCONNECTED] at h
    · intro hnil
      rw [(handleClientCmd_empty_buffer pool inbox w hslot hnil).1]; rfl
  · intro m rest hin hne hnul
    subst hin
    have hnil : cstr (receivedBuffer (some m :: rest)) ≠ [] := by
      rw [ne_eq, receivedBuffer_empty_iff]; exact not_or.mpr ⟨hne, hnul⟩
    refine ⟨fun hv => ?_, fun hv => ⟨fun hw => ?_, fun rv hrv => ?_⟩⟩
    · have hinv : validCommand (receivedBuffer (some m :: rest)) = false := by
        rw [Bool.eq_false_iff, ne_eq, validCommand_received]; exact hv
      exact (handleClientCmd_invalid_buffer pool _ w hslot hnil hinv).1
    · exact handleClientCmd_valid_buffer pool _ w hslot hnil
        ((validCommand_received m rest).mpr hv) hw
    · rcases handleClientCmd_valid_buffer_cases pool _ w hslot hnil
        ((validCommand_received m rest).mpr hv) with h0 | h0
      · rw [h0] at hrv; injection hrv with hrv; exact hrv.symm
      · rw [h0] at hrv; cases hrv

/-- C5, witness: the message `-l` on a fresh pool is answered with status 0. -/
theorem handleClientCmd_status_witness :
    (handleClientCmd freshPool [some [45, 108]] smallWorld).retval = some 0 :=
  ((handleClientCmd_status freshPool [some [45, 108]] smallWorld ⟨0, by decide, rfl⟩).2.2
    [45, 108] [] rfl (by decide) (by decide)).2 (by decide) |>.1 smallWorld_opens

/-- C5, counterexample.  The two-byte message made of a zero byte and `x` is not
zero-length, yet `handleClientCmd` on a fresh pool returns `CLIENT_DISCONNECTED` (-1) for
it: a non-empty message is reported as a disconnect, not with status 1. -/
theorem handleClientCmd_disconnect_on_message :
    ([0, 120] : List Nat).length = 2
      ∧ List.take 2 [0, 120] ≠ GET_MESSAGE ∧ List.take 2 [0, 120] ≠ LIST_MESSAGE
      ∧ (∃ i, i < NUM_BUFFERS ∧ freshPool.io_mutexes i = false)
      ∧ (handleClientCmd freshPool [some [0, 120]] smallWorld).retval
          = some CLIENT_DISCONNECTED
      ∧ (handleClientCmd freshPool [some [0, 120]] smallWorld).retval
          ≠ some CLIENT_INVALID_CONNECTED := by
  have hslot : ∃ i, i < NUM_BUFFERS ∧ freshPool.io_mutexes i = false := ⟨0, by decide, rfl⟩
  have hnil : cstr (receivedBuffer [some [0, 120]]) = [] :=
    (receivedBuffer_empty_iff [0, 120] []).mpr (Or.inr rfl)
  rw [(handleClientCmd_empty_buffer freshPool [some [0, 120]] smallWorld hslot hnil).1]
  exact ⟨rfl, by decide, by decide, hslot, rfl, by decide⟩

/-- C6.  For every lock state of the pool: if `i` is the lowest index below 5 whose slot is
not locked, `acquireFreeIOMutex` returns `i`, leaves slot `i` locked, the lock state of every
other slot as it was, and the input buffer of slot `i` 128 zero bytes and its output buffer
4096 zero bytes; it returns -1 exactly when all 5 slots are locked, and then the pool is
unchanged; and it returns nothing else.  Consequently, after any sequence of acquire and
release calls on the pool `initializeServer` leaves, every slot that is on record as handed
out is locked and is on record for one borrower only. -/
theorem acquireFreeIOMutex_spec :
    (∀ (pool : Pool) (i : Nat), i < NUM_BUFFERS → pool.io_mutexes i = false →
        (∀ j, j < i → pool.io_mutexes j = true) →
        (acquireFreeIOMutex pool).1 = (i : Int)
          ∧ (acquireFreeIOMutex pool).2.io_mutexes i = true
          ∧ (∀ j, j ≠ i → (acquireFreeIOMutex pool).2.io_mutexes j = pool.io_mutexes j)
          ∧ (acquireFreeIOMutex pool).2.in_buffers i = List.replicate 128 0
          ∧ (acquireFreeIOMutex pool).2.out_buffers i = List.replicate 4096 0)
      ∧ (∀ pool : Pool,
          ((acquireFreeIOMutex pool).1 = -1 ↔ ∀ i, i < NUM_BUFFERS → pool.io_mutexes i = true)
            ∧ ((acquireFreeIOMutex pool).1 = -1 → (acquireFreeIOMutex pool).2 = pool)
            ∧ ((acquireFreeIOMutex pool).1 = -1
                ∨ ∃ i, i < NUM_BUFFERS ∧ (acquireFreeIOMutex pool).1 = (i : Int)
                    ∧ pool.io_mutexes i = false ∧ ∀ j, j < i → pool.io_mutexes j = true))
      ∧ (∀ (in_buffers out_buffers : Nat → List Nat) (ops : List PoolOp),
          (∀ b slot, (b, slot) ∈ (Lending.run in_buffers out_buffers ops).holders →
              (Lending.run in_buffers out_buffers ops).pool.io_mutexes slot = true)
            ∧ ∀ b1 b2 slot, (b1, slot) ∈ (Lending.run in_buffers out_buffers ops).holders →
                (b2, slot) ∈ (Lending.run in_buffers out_buffers ops).holders → b1 = b2) := by
  refine ⟨?_, ?_, ?_⟩
  · intro pool i hi hfree hlow
    rw [acquireFreeIOMutex_free pool i hi hfree hlow]
    refine ⟨rfl, by simp, fun j hj => by simp [Function.update, hj], ?_, ?_⟩
    · simp only [Function.update_same]; rfl
    · simp only [Function.update_same]; rfl
  · intro pool
    rcases acquireFreeIOMutex_cases pool with ⟨i, hi, hfree, hlow, e⟩ | ⟨hall, e⟩
    · rw [e]
      have hne : ((i : Int) = -1) ↔ False := by
        constructor
        · intro h; omega
        · intro h; exact h.elim
      refine ⟨?_, ?_, Or.inr ⟨i, hi, rfl, hfree, hlow⟩⟩
      · simp only [hne, false_iff]
        intro hall
        rw [hall i hi] at hfree; cases hfree
      · intro h; exact absurd h (by simp only [hne, not_false_eq_true])
    · rw [e]
      exact ⟨⟨fun _ => hall, fun _ => rfl⟩, fun _ => rfl, Or.inl rfl⟩
  · intro in_buffers out_buffers ops
    obtain ⟨hlocked, hnodup⟩ := Lending.run_inv in_buffers out_buffers ops
    refine ⟨fun b slot h => hlocked (b, slot) h, fun b1 b2 slot h1 h2 => ?_⟩
    have := List.inj_on_of_nodup_map hnodup h1 h2 rfl
    exact congrArg Prod.fst this

/-- C6, witness: with slots 0 and 1 locked, slot 2 is handed out and zeroed. -/
theorem acquireFreeIOMutex_spec_witness :
    (acquireFreeIOMutex twoHeldPool).1 = 2
      ∧ (acquireFreeIOMutex twoHeldPool).2.io_mutexes 2 = true
      ∧ (acquireFreeIOMutex twoHeldPool).2.in_buffers 2 = List.replicate 128 0 :=
  have h := acquireFreeIOMutex_spec.1 twoHeldPool 2 (by decide) rfl (by decide)
  ⟨h.1, h.2.1, h.2.2.2.1⟩

/-- C7.  Whenever `handleClientCmd` returns, whatever message was received and whatever the
data connection and the handlers did, the lock state of every slot is what it was before the
call, and so is the number of free slots; it returns whenever the working directory and the
files found in it can be opened.  Hence a control loop that starts on a pool with all 5
slots free, with no other thread at work, leaves 5 free slots after any number of
dispatches. -/
theorem handleClientCmd_releases_slot :
    (∀ (pool : Pool) (inbox : Inbox) (w : World) (rv : Int),
        (handleClientCmd pool inbox w).retval = some rv →
        (handleClientCmd pool inbox w).pool.io_mutexes = pool.io_mutexes
          ∧ freeSlots (handleClientCmd pool inbox w).pool = freeSlots pool)
      ∧ (∀ (pool : Pool) (inbox : Inbox) (w : World), w.opens →
          ∃ rv, (handleClientCmd pool inbox w).retval = some rv)
      ∧ (∀ (in_buffers out_buffers : Nat → List Nat) (inbox : Inbox) (ticks : List Tick),
          (∀ t ∈ ticks, t.others = id) →
          (ctrlLoop (initialPool in_buffers out_buffers) inbox ticks).finish ≠ Finish.faulted →
          freeSlots (ctrlLoop (initialPool in_buffers out_buffers) inbox ticks).pool
            = NUM_BUFFERS)
      ∧ (∀ (pool : Pool) (inbox : Inbox) (ticks : List Tick),
          (∀ t ∈ ticks, t.world.opens) →
          (ctrlLoop pool inbox ticks).finish ≠ Finish.faulted) := by
  refine ⟨?_, handleClientCmd_returns, ?_, ?_⟩
  · intro pool inbox w rv hret
    have h := handleClientCmd_locks pool inbox w rv hret
    exact ⟨h, freeSlots_congr _ _ h⟩
  · intro in_buffers out_buffers inbox ticks hid hfin
    have h := ctrlLoopFrom_locks ticks 0 (initialPool in_buffers out_buffers) inbox hid hfin
    rw [ctrlLoop, freeSlots_congr _ _ h, freeSlots_initialPool]
  · intro pool inbox ticks hw
    exact ctrlLoopFrom_no_fault ticks 0 pool inbox hw

/-- C7, witness: the command `-l` on a fresh pool returns 0 and leaves all 5 slots free. -/
theorem handleClientCmd_releases_slot_witness :
    (handleClientCmd freshPool [some [45, 108]] smallWorld).retval = some 0
      ∧ freeSlots (handleClientCmd freshPool [some [45, 108]] smallWorld).pool
          = freeSlots freshPool :=
  have hne : cstr (receivedBuffer [some [45, 108]]) ≠ [] := by
    rw [ne_eq, receivedBuffer_empty_iff]; decide
  have hv : validCommand (receivedBuffer [some [45, 108]]) = true :=
    (validCommand_received [45, 108] []).mpr (Or.inr rfl)
  have hret := handleClientCmd_valid_buffer freshPool [some [45, 108]] smallWorld
    ⟨0, by decide, rfl⟩ hne hv smallWorld_opens
  ⟨hret, (handleClientCmd_releases_slot.1 freshPool [some [45, 108]] smallWorld 0 hret).2⟩

/-- C8.  In every run of `worker_thread`: if `getClientDataSocketInfo` returns -1, the run
ends without any call of `handleClientCmd`; otherwise it returned 0, none of the two
receives and two sends of the handshake failed, and the trace begins with these four calls
in the order receive, send `@@ACK_ADDR`, receive, send `@@ACK_PORT`; and every call of
`handleClientCmd` in the trace comes after these four calls. -/
theorem worker_thread_handshake_first (pool : Pool) (inbox : Inbox) (hs : Handshake)
    (ticks : List Tick) :
    ((getClientDataSocketInfo pool inbox hs).retval = -1 →
        dispatches (worker_thread pool inbox hs ticks).trace = 0
          ∧ Event.dispatch ∉ (worker_thread pool inbox hs ticks).trace
          ∧ (worker_thread pool inbox hs ticks).finish ≠ Finish.running)
      ∧ ((getClientDataSocketInfo pool inbox hs).retval ≠ -1 →
          (getClientDataSocketInfo pool inbox hs).retval = 0
            ∧ (recv inbox (zeroed IN_BUFFER_SIZE) IN_BUFFER_SIZE).1 ≠ -1
            ∧ hs.sendAddr = true
            ∧ (recv (recv inbox (zeroed IN_BUFFER_SIZE) IN_BUFFER_SIZE).2.2
                (zeroed IN_BUFFER_SIZE) IN_BUFFER_SIZE).1 ≠ -1
            ∧ hs.sendPort = true
            ∧ ∃ rest, (worker_thread pool inbox hs ticks).trace
                = [Event.recv Fd.cmd IN_BUFFER_SIZE, Event.send Fd.cmd ACK_ADDR,
                   Event.recv Fd.cmd IN_BUFFER_SIZE, Event.send Fd.cmd ACK_PORT] ++ rest)
      ∧ ∀ pre post, (worker_thread pool inbox hs ticks).trace = pre ++ Event.dispatch :: post →
          ∃ mid, pre = [Event.recv Fd.cmd IN_BUFFER_SIZE, Event.send Fd.cmd ACK_ADDR,
                        Event.recv Fd.cmd IN_BUFFER_SIZE, Event.send Fd.cmd ACK_PORT] ++ mid := by
  have hfail : (getClientDataSocketInfo pool inbox hs).retval = -1 →
      Event.dispatch ∉ (worker_thread pool inbox hs ticks).trace
        ∧ (worker_thread pool inbox hs ticks).finish ≠ Finish.running := by
    intro hret
    have hno : Event.dispatch ∉ (getClientDataSocketInfo pool inbox hs).trace := by
      rcases getClientDataSocketInfo_cases pool inbox hs with h | h
      · rw [h.1] at hret; cases hret
      · exact h.2
    simp only [worker_thread, hret, if_true, workerThreadComplete]
    refine ⟨?_, by simp⟩
    simp only [List.mem_append, List.mem_cons, List.not_mem_nil, or_false, not_or]
    exact ⟨hno, by simp, by simp⟩
  have hok : (getClientDataSocketInfo pool inbox hs).retval ≠ -1 →
      (getClientDataSocketInfo pool inbox hs).retval = 0
        ∧ (recv inbox (zeroed IN_BUFFER_SIZE) IN_BUFFER_SIZE).1 ≠ -1
        ∧ hs.sendAddr = true
        ∧ (recv (recv inbox (zeroed IN_BUFFER_SIZE) IN_BUFFER_SIZE).2.2
            (zeroed IN_BUFFER_SIZE) IN_BUFFER_SIZE).1 ≠ -1
        ∧ hs.sendPort = true
        ∧ ∃ rest, (worker_thread pool inbox hs ticks).trace = handshakeTrace ++ rest := by
    intro hret
    rcases getClientDataSocketInfo_cases pool inbox hs with h | h
    · refine ⟨h.1, h.2.2.2.2.1, h.2.2.1, h.2.2.2.2.2, h.2.2.2.1, ?_⟩
      simp only [worker_thread, hret, if_false, h.2.1]
      split
      · exact ⟨_, rfl⟩
      · exact ⟨_, rfl⟩
    · exact absurd h.1 hret
  refine ⟨fun hret => ?_, hok, ?_⟩
  · obtain ⟨hno, hfin⟩ := hfail hret
    refine ⟨?_, hno, hfin⟩
    have : ∀ l : List Event, Event.dispatch ∉ l → dispatches l = 0 := by
      intro l
      induction l with
      | nil => intro _; rfl
      | cons e t ih =>
          intro hl
          have ht := ih (fun h => hl (List.mem_cons_of_mem e h))
          cases e <;> first | exact ht | exact absurd (List.mem_cons_self _ _) hl
    exact this _ hno
  · intro pre post hsplit
    by_cases hret : (getClientDataSocketInfo pool inbox hs).retval = -1
    · exact absurd (hsplit ▸ List.mem_append_right pre (List.mem_cons_self _ _)) (hfail hret).1
    · obtain ⟨_, _, _, _, _, rest, hrest⟩ := hok hret
      rw [hrest] at hsplit
      rcases List.append_eq_append_iff.mp hsplit with ⟨a, ha, _⟩ | ⟨c, hc, hd⟩
      · exact ⟨a, ha⟩
      · cases c with
        | nil => exact ⟨[], by simpa using hc.symm⟩
        | cons x c =>
            have hx : Event.dispatch = x := by
              rw [List.cons_append] at hd; injection hd
            have hmem : Event.dispatch ∈ handshakeTrace := by
              rw [hc, hx]; simp
            simp [handshakeTrace] at hmem

/-- C8, witness: with no pool slot free the handshake fails and nothing is dispatched. -/
theorem worker_thread_handshake_first_witness :
    (getClientDataSocketInfo fullPool [] { sendAddr := true, sendPort := true }).retval = -1
      ∧ dispatches
          (worker_thread fullPool [] { sendAddr := true, sendPort := true } []).trace = 0 :=
  have hret :
      (getClientDataSocketInfo fullPool [] { sendAddr := true, sendPort := true }).retval
        = -1 := by
    unfold getClientDataSocketInfo
    rw [acquireFreeIOMutex_full fullPool (fun _ _ => rfl)]
    simp
  ⟨hret, ((worker_thread_handshake_first fullPool [] { sendAddr := true, sendPort := true }
    []).1 hret).1⟩

/-- C9.  For every run of `ctrlLoop` that returns: if the last status is not
`CLIENT_DISCONNECTED`, the shutdown flag was read as set, and the trace ends with the one
send of `@@SERVER_KILL` on the control connection, after every dispatch; if the last status
is `CLIENT_DISCONNECTED`, no `@@SERVER_KILL` is sent.  And once the flag is read as set at
the loop test, the rest of the schedule has no effect and no further command is
dispatched. -/
theorem ctrlLoop_shutdown (pool : Pool) (inbox : Inbox) (ticks : List Tick) :
    ((ctrlLoop pool inbox ticks).finish = Finish.done →
        (ctrlLoop pool inbox ticks).connection_status ≠ CLIENT_DISCONNECTED →
        (∃ t ∈ ticks, t.shutdown = true)
          ∧ ∃ pre, (ctrlLoop pool inbox ticks).trace
                = pre ++ [Event.send Fd.cmd SERVER_KILL_MESSAGE]
              ∧ ∀ e ∈ pre, e ≠ Event.send Fd.cmd SERVER_KILL_MESSAGE)
      ∧ ((ctrlLoop pool inbox ticks).finish = Finish.done →
          (ctrlLoop pool inbox ticks).connection_status = CLIENT_DISCONNECTED →
          ∀ e ∈ (ctrlLoop pool inbox ticks).trace, e ≠ Event.send Fd.cmd SERVER_KILL_MESSAGE)
      ∧ ∀ before t after, ticks = before ++ t :: after → t.shutdown = true →
          ctrlLoop pool inbox ticks = ctrlLoop pool inbox (before ++ [t])
            ∧ dispatches (ctrlLoop pool inbox ticks).trace
                = dispatches (ctrlLoop pool inbox before).trace
            ∧ (ctrlLoop pool inbox ticks).finish ≠ Finish.running := by
  obtain ⟨hkill, hquiet⟩ := ctrlLoopFrom_kill ticks 0 pool inbox
  refine ⟨hkill, hquiet, ?_⟩
  intro before t after hticks ht
  subst hticks
  obtain ⟨h1, h2⟩ := ctrlLoopFrom_shutdown before t after ht 0 pool inbox
  refine ⟨h1, ?_, ?_⟩
  · rw [ctrlLoop, h1, h2]; rfl
  · rw [ctrlLoop, h1]
    exact ctrlLoopFrom_stops before t ht 0 pool inbox

/-- C9, witness: a loop whose first test reads the shutdown flag as set sends
`@@SERVER_KILL` and nothing else. -/
theorem ctrlLoop_shutdown_witness :
    (∃ t ∈ [shutdownTick], t.shutdown = true)
      ∧ ∃ pre, (ctrlLoop freshPool [] [shutdownTick]).trace
            = pre ++ [Event.send Fd.cmd SERVER_KILL_MESSAGE]
          ∧ ∀ e ∈ pre, e ≠ Event.send Fd.cmd SERVER_KILL_MESSAGE :=
  have hexit : ctrlLoop freshPool [] [shutdownTick]
      = { finish := Finish.done, connection_status := 0, pool := freshPool, inbox := []
          trace := sendKillToClient } := by
    rw [ctrlLoop, ctrlLoopFrom_exit 0 freshPool [] shutdownTick [] (by simp [shutdownTick])]
    simp [CLIENT_DISCONNECTED]
  (ctrlLoop_shutdown freshPool [] [shutdownTick]).1 (by rw [hexit])
    (by rw [hexit]; simp [CLIENT_DISCONNECTED])

/-- C10, amended.  When all 5 pool slots are locked, `handleClientCmd` does not wait: it
reports the condition on the console and returns the non-disconnect status 1; it opens no
data connection, sends nothing and makes no receive, so the pending command stays unread in
the input of the control connection and the next dispatch of the session receives that same
command. -/
theorem handleClientCmd_no_slot (pool : Pool) (inbox : Inbox) (w : World)
    (hall : ∀ i, i < NUM_BUFFERS → pool.io_mutexes i = true) :
    (handleClientCmd pool inbox w).trace = [Event.console Console.noMutexAvailable]
      ∧ (handleClientCmd pool inbox w).retval = some CLIENT_INVALID_CONNECTED
      ∧ (handleClientCmd pool inbox w).retval ≠ some CLIENT_DISCONNECTED
      ∧ Event.establish ∉ (handleClientCmd pool inbox w).trace
      ∧ (∀ fd size, Event.recv fd size ∉ (handleClientCmd pool inbox w).trace)
      ∧ (handleClientCmd pool inbox w).inbox = inbox
      ∧ ∀ next_pool next_w,
          handleClientCmd next_pool (handleClientCmd pool inbox w).inbox next_w
            = handleClientCmd next_pool inbox next_w := by
  have e := handleClientCmd_full pool inbox w hall
  have hi : (handleClientCmd pool inbox w).inbox = inbox := by rw [e]
  refine ⟨by rw [e], by rw [e]; rfl, by rw [e]; simp [CLIENT_DISCONNECTED], by rw [e]; simp,
    ?_, hi, ?_⟩
  · intro fd size; rw [e]; simp
  · intro next_pool next_w; rw [hi]

/-- C10, witness: the command `-x` arriving while every slot is locked. -/
theorem handleClientCmd_no_slot_witness :
    (handleClientCmd fullPool [some [45, 120]] smallWorld).retval = some 1
      ∧ (handleClientCmd fullPool [some [45, 120]] smallWorld).inbox = [some [45, 120]] :=
  have h := handleClientCmd_no_slot fullPool [some [45, 120]] smallWorld (fun _ _ => rfl)
  ⟨h.2.1, h.2.2.2.2.2.1⟩

/-- C10, counterexample.  With every slot locked and the command `-x` pending,
`handleClientCmd` leaves the command in the input of the control connection, and the next
dispatch, which finds a free slot, receives it and answers it with
`@@ERROR_INVALID_COMMAND`: the command was not dropped. -/
theorem handleClientCmd_command_not_dropped :
    (∀ i, i < NUM_BUFFERS → fullPool.io_mutexes i = true)
      ∧ (handleClientCmd fullPool [some [45, 120]] smallWorld).inbox = [some [45, 120]]
      ∧ (handleClientCmd fullPool [some [45, 120]] smallWorld).inbox ≠ []
      ∧ sentOn Fd.cmd
          (handleClientCmd freshPool
            (handleClientCmd fullPool [some [45, 120]] smallWorld).inbox smallWorld).trace
          = ERROR_INVALID_COMMAND := by
  have e := handleClientCmd_full fullPool [some [45, 120]] smallWorld (fun _ _ => rfl)
  have hbuf : cstr (receivedBuffer [some [45, 120]]) ≠ [] := by
    rw [ne_eq, receivedBuffer_empty_iff]; decide
  have hinv : validCommand (receivedBuffer [some [45, 120]]) = false := by
    rw [Bool.eq_false_iff, ne_eq, validCommand_received]; decide
  have hnext := handleClientCmd_invalid_buffer freshPool [some [45, 120]] smallWorld
    ⟨0, by decide, rfl⟩ hbuf hinv
  rw [e]
  refine ⟨fun _ _ => rfl, rfl, by simp, ?_⟩
  simp only []
  rw [hnext.2]
  simp

/-- C11, amended.  For every argument vector, `getValidPort` returns `argv[1]` unchanged
exactly when a first positional argument is present and its first character is `'0'` or
`atoi` converts it to a number other than zero; in every other case it ends the process with
exit status 1, as it does when the argument is missing.  Every numeric string whose value is
below 2^31 is returned. -/
theorem getValidPort_spec :
    (∀ (argv : List (List Nat)) (s : List Nat),
        getValidPort argv = Except.ok s
          ↔ 2 ≤ argv.length ∧ s = argv.getD 1 [] ∧ (s.head? = some 48 ∨ atoi s ≠ 0))
      ∧ (∀ argv : List (List Nat),
          getValidPort argv = Except.ok (argv.getD 1 []) ∨ getValidPort argv = Except.error 1)
      ∧ (∀ argv : List (List Nat), argv.length < 2 → getValidPort argv = Except.error 1)
      ∧ (∀ argv : List (List Nat), 2 ≤ argv.length → isNumeric (argv.getD 1 []) →
          digitsValue 0 (argv.getD 1 []) < 2147483648 →
          getValidPort argv = Except.ok (argv.getD 1 [])) := by
  refine ⟨getValidPort_ok_iff, getValidPort_cases, ?_, ?_⟩
  · intro argv hlen
    rcases getValidPort_cases argv with h | h
    · have := ((getValidPort_ok_iff argv _).mp h).1
      omega
    · exact h
  · intro argv hlen hnum hfit
    rw [getValidPort_ok_iff]
    refine ⟨hlen, rfl, ?_⟩
    by_cases hhead : (argv.getD 1 []).head? = some 48
    · exact Or.inl hhead
    · exact Or.inr (atoi_numeric _ hnum hhead hfit).2

/-- C11, witness: the arguments `./server 8080` and `./server 0`. -/
theorem getValidPort_spec_witness :
    getValidPort [programName, [56, 48, 56, 48]] = Except.ok [56, 48, 56, 48]
      ∧ getValidPort [programName, [48]] = Except.ok [48] :=
  ⟨getValidPort_spec.2.2.2 [programName, [56, 48, 56, 48]] (by decide)
      ⟨by decide, by decide⟩ (by decide),
   getValidPort_spec.2.2.2 [programName, [48]] (by decide) ⟨by decide, by decide⟩ (by decide)⟩

/-- C11, counterexample.  The strings `12abc` and `0x` are not numeric strings, yet
`getValidPort` returns them instead of ending the process. -/
theorem getValidPort_returns_non_numeric :
    ¬ isNumeric [49, 50, 97, 98, 99]
      ∧ getValidPort [programName, [49, 50, 97, 98, 99]] = Except.ok [49, 50, 97, 98, 99]
      ∧ ¬ isNumeric [48, 120]
      ∧ getValidPort [programName, [48, 120]] = Except.ok [48, 120] := by
  refine ⟨?_, rfl, ?_, rfl⟩
  · intro h
    exact absurd (h.2 97 (by decide)) (by decide)
  · intro h
    exact absurd (h.2 120 (by decide)) (by decide)

/-- C12, the code at a failing input.  For the command `-g a` on a fresh pool, with the data
connection open, `handleClientCmd` runs `handleGetCmd` and after it `handleListCmd`: the
data connection carries the padded chunk of the file and `@@END_DATA`, and then the listing
of the directory and a second `@@END_DATA`. -/
theorem handleClientCmd_get_runs_list :
    (handleClientCmd freshPool [some [45, 103, 32, 97]] smallWorld).trace
        = [Event.recv Fd.cmd IN_BUFFER_SIZE, Event.console Console.commandReceived,
           Event.establish, Event.recv Fd.data 28]
            ++ (handleGetCmd smallWorld getA (zeroed OUT_BUFFER_SIZE)).trace
            ++ handleListCmd smallWorld ++ [Event.close Fd.data]
      ∧ sentOn Fd.data (handleClientCmd freshPool [some [45, 103, 32, 97]] smallWorld).trace
        = ([97] ++ List.replicate 4095 0 ++ END_DATA_MESSAGE)
            ++ ([97, 10, 98, 10] ++ END_DATA_MESSAGE)
      ∧ (handleClientCmd freshPool [some [45, 103, 32, 97]] smallWorld).retval = some 0 := by
  have hbuf : receivedBuffer [some [45, 103, 32, 97]] = getA := by rfl
  obtain ⟨hdata, hret⟩ := handleGetCmd_getA_data
  have hne : cstr (receivedBuffer [some [45, 103, 32, 97]]) ≠ [] := by
    rw [ne_eq, receivedBuffer_empty_iff]; decide
  have hget : strncmp (receivedBuffer [some [45, 103, 32, 97]]) GET_MESSAGE 2 = true := by
    rw [hbuf]
    exact (strncmp_two getA 45 103 (by decide) (by decide)).mpr (by decide)
  obtain ⟨htrace, hval⟩ := handleClientCmd_get_then_list freshPool [some [45, 103, 32, 97]]
    smallWorld ⟨0, by decide, rfl⟩ hne hget rfl (by rw [hbuf]; exact hret)
  rw [hbuf] at htrace
  refine ⟨?_, ?_, hval⟩
  · rw [htrace]; rfl
  · rw [htrace]
    have hconn : (establishDataConnection smallWorld).2
        = [Event.establish, Event.recv Fd.data 28] := rfl
    rw [hconn]
    simp only [List.cons_append, List.nil_append, sentOn_recv, sentOn_console,
      sentOn_establish, sentOn_append, hdata, handleListCmd_small_data, sentOn_close,
      sentOn_nil, List.append_nil]

/-- C13, the code at a failing input.  On a fresh pool, when the first receive of the
handshake fails, and likewise when the send of `@@ACK_ADDR` fails,
`getClientDataSocketInfo` returns -1 with slot 0 still locked: 4 slots are free where 5
were. -/
theorem getClientDataSocketInfo_leaks_slot :
    freeSlots freshPool = 5
      ∧ (getClientDataSocketInfo freshPool [none]
          { sendAddr := true, sendPort := true }).retval = -1
      ∧ (getClientDataSocketInfo freshPool [none]
          { sendAddr := true, sendPort := true }).pool.io_mutexes 0 = true
      ∧ freeSlots (getClientDataSocketInfo freshPool [none]
          { sendAddr := true, sendPort := true }).pool = 4
      ∧ (getClientDataSocketInfo freshPool [some [49, 50, 55]]
          { sendAddr := false, sendPort := true }).retval = -1
      ∧ freeSlots (getClientDataSocketInfo freshPool [some [49, 50, 55]]
          { sendAddr := false, sendPort := true }).pool = 4 := by
  have hcount : ∀ p : Pool, p.io_mutexes = Function.update freshPool.io_mutexes 0 true →
      p.io_mutexes 0 = true ∧ freeSlots p = 4 := by
    intro p hp
    constructor
    · rw [hp]; rfl
    · unfold freeSlots
      rw [hp]
      decide
  have hrecv : (getClientDataSocketInfo freshPool [none]
      { sendAddr := true, sendPort := true }).retval = -1 := by
    rcases getClientDataSocketInfo_cases freshPool [none]
      { sendAddr := true, sendPort := true } with h | h
    · exact absurd rfl h.2.2.2.2.1
    · exact h.1
  have hsend : (getClientDataSocketInfo freshPool [some [49, 50, 55]]
      { sendAddr := false, sendPort := true }).retval = -1 := by
    rcases getClientDataSocketInfo_cases freshPool [some [49, 50, 55]]
      { sendAddr := false, sendPort := true } with h | h
    · exact absurd h.2.2.1 (by decide)
    · exact h.1
  have hleak : ∀ inbox hs, (getClientDataSocketInfo freshPool inbox hs).retval = -1 →
      (getClientDataSocketInfo freshPool inbox hs).pool.io_mutexes
        = Function.update freshPool.io_mutexes 0 true := by
    intro inbox hs hfail
    rcases getClientDataSocketInfo_locks freshPool inbox hs 0 (by decide) rfl
      (fun j hj => absurd hj (Nat.not_lt_zero j)) with h | h
    · rw [h.1] at hfail; cases hfail
    · exact h.2
  obtain ⟨ha, hb⟩ := hcount _ (hleak _ _ hrecv)
  obtain ⟨_, hd⟩ := hcount _ (hleak _ _ hsend)
  exact ⟨by decide, hrecv, ha, hb, hsend, hd⟩

end DownloadServer
